import Mathlib

/-!
Shallow embedding of the online recommendation pipeline of
`src/server/rest.go` (package `server` of the gorse repository).

Modelling conventions:
* Machine `float32` scores are modelled as `Int` (no claim here depends on
  floating-point rounding); `time.Time` instants are modelled as Unix seconds
  (`Int`), so `timestamp.Unix()` is the identity and adding `D` minutes adds
  `60 * D` seconds.
* The cache store and the data store are external backends (only their
  interface matters); they are modelled as an `Env` of pure oracles.  Every
  call issued against a store is additionally recorded in a trace of
  `StoreOp` values, so frame conditions ("only reads are issued") are
  expressible.
* Go runtime panics (out-of-range slice or index expressions) are modelled
  as the error value `GoErr.panic`; Go `error` results from the stores are
  `GoErr.store msg`.
* `strset.Set` is modelled as a `List String` with membership semantics;
  Go maps `map[string]float32` are modelled as association lists whose keys
  stay distinct.
* Timing fields (`time.Duration`) and log/metric emission are not modelled:
  no claim in scope mentions them.
-/

namespace Gorse

/-- A `cache.Scored` pair: `(Id, Score)`; `float32` modelled as `Int`. -/
structure Scored where
  id : String
  score : Int
  deriving DecidableEq

/-- A `data.Feedback` row; `FeedbackKey = (UserId, ItemId, FeedbackType)`,
plus the timestamp (Unix seconds). The `Comment` field is never read by the
pipeline and is omitted. -/
structure Feedback where
  userId : String
  itemId : String
  feedbackType : String
  timestamp : Int
  deriving DecidableEq

/-- A `data.Item`. -/
structure Item where
  itemId : String
  isHidden : Bool
  categories : List String
  timestamp : Int
  labels : List String
  deriving DecidableEq

/-- A Go-level failure: a store `error` value, or a runtime panic. -/
inductive GoErr where
  | store (msg : String)
  | panic
  deriving DecidableEq

/-- Result of running embedded Go code. -/
abbrev Res (α : Type) : Type := Except GoErr α

/-- One call issued against the cache store or the data store. -/
inductive StoreOp where
  | getScores (pre name : String) (b e : Int)
  | existsCheck (pre : String) (names : List String)
  | getUserFeedback (userId : String) (withFuture : Bool) (types : List String)
  | getItem (itemId : String)
  | appendScores (pre name : String) (entries : List Scored)
  | batchInsertFeedback (rows : List Feedback) (autoInsertUser autoInsertItem overwrite : Bool)
  deriving DecidableEq

/-- A store operation that only reads (never mutates) the stores. -/
def StoreOp.isRead : StoreOp → Bool
  | .getScores _ _ _ _ => true
  | .existsCheck _ _ => true
  | .getUserFeedback _ _ _ => true
  | .getItem _ => true
  | .appendScores _ _ _ => false
  | .batchInsertFeedback _ _ _ _ => false

/-- The two external stores plus the configuration and the clock, as pure
oracles.  The write operations only report success or failure; their effect
on the store is not needed by any claim, the issued operation itself is
recorded in the `StoreOp` trace. -/
structure Env where
  getScores : String → String → Int → Int → Except String (List Scored)
  existsCheck : String → List String → Except String (List Nat)
  getUserFeedback : String → Bool → List String → Except String (List Feedback)
  getItem : String → Except String Item
  batchInsertFeedback : List Feedback → Bool → Bool → Bool → Except String Unit
  appendScores : String → String → List Scored → Except String Unit
  now : Int
  cacheSize : Int
  positiveFeedbackTypes : List String

/-- Modelled from the spec (§4.1): the cache keyspace constants live in the
cache package, which is outside `src/`; only their distinctness matters. -/
def ignoreItemsKey : String := "ignore_items"

/-- Modelled from the spec (§4.1): cache keyspace constant. -/
def hiddenItemsKey : String := "hidden_items"

/-- Modelled from the spec (§4.1): cache keyspace constant. -/
def offlineRecommendKey : String := "offline_recommend"

/-- Modelled from the spec (§4.1): cache keyspace constant. -/
def collaborativeRecommendKey : String := "collaborative_recommend"

/-- Modelled from the spec (§4.1): cache keyspace constant. -/
def itemNeighborsKey : String := "item_neighbors"

/-- Modelled from the spec (§4.1): cache keyspace constant. -/
def userNeighborsKey : String := "user_neighbors"

/-- Modelled from the spec (§4.1): cache keyspace constant. -/
def latestItemsKey : String := "latest_items"

/-- Modelled from the spec (§4.1): cache keyspace constant. -/
def popularItemsKey : String := "popular_items"

/-- Modelled from the spec (§4.1): `GetCategoryScores` is shorthand for
appending `/category` to the name when `category ≠ ""` (the cache package
implementing it is outside `src/`). -/
def categoryName (name category : String) : String :=
  if category = "" then name else name ++ "/" ++ category

/-- `GetCategoryScores` call: delegates to `GetScores` on the combined name. -/
def getCategoryScores (env : Env) (pre name category : String) (b e : Int) :
    Except String (List Scored) × List StoreOp :=
  (env.getScores pre (categoryName name category) b e,
   [.getScores pre (categoryName name category) b e])

/-- `cache.RemoveScores`: project a scored list to its ids. -/
def removeScores (items : List Scored) : List String := items.map Scored.id

/-- The filtering loop shared by `filterOutHiddenScores` and
`filterOutHiddenFeedback`: `for i := range isHidden { if isHidden[i] == 0 {
results = append(results, items[i]) } }`.  Indexing `items[i]` panics when
the flag list is longer than the item list. -/
def keepUnhidden {α : Type} : List Nat → List α → Res (List α)
  | [], _ => .ok []
  | _ :: _, [] => .error .panic
  | b :: bs, x :: xs =>
    match keepUnhidden bs xs with
    | .error e => .error e
    | .ok rest => .ok (if b = 0 then x :: rest else rest)

/-- `RestServer.filterOutHiddenScores`: checks `Exists(HiddenItems, ids)`;
on a cache error it logs and returns the input unchanged (fail-open). -/
def filterOutHiddenScores (env : Env) (items : List Scored) :
    Res (List Scored) × List StoreOp :=
  match env.existsCheck hiddenItemsKey (removeScores items) with
  | .error _ => (.ok items, [.existsCheck hiddenItemsKey (removeScores items)])
  | .ok isHidden => (keepUnhidden isHidden items,
                     [.existsCheck hiddenItemsKey (removeScores items)])

/-- `RestServer.filterOutHiddenFeedback`: same policy on `feedback.ItemId`. -/
def filterOutHiddenFeedback (env : Env) (feedbacks : List Feedback) :
    Res (List Feedback) × List StoreOp :=
  match env.existsCheck hiddenItemsKey (feedbacks.map Feedback.itemId) with
  | .error _ => (.ok feedbacks, [.existsCheck hiddenItemsKey (feedbacks.map Feedback.itemId)])
  | .ok isHidden => (keepUnhidden isHidden feedbacks,
                     [.existsCheck hiddenItemsKey (feedbacks.map Feedback.itemId)])

/-- `strset.Set.Add` for one element (membership semantics on a list). -/
def setAdd (s : List String) (x : String) : List String :=
  if x ∈ s then s else x :: s

/-- `strset.Set.Add` applied to a slice of elements (`Add(ids...)`). -/
def setAddAll (s : List String) (xs : List String) : List String :=
  xs.foldl setAdd s

/-- The per-request `recommendContext`.  `userFeedback == nil` is modelled
as `none`; timing fields are omitted (no claim mentions them). -/
structure RecommendContext where
  userId : String
  category : String
  userFeedback : Option (List Feedback)
  n : Int
  results : List String
  excludeSet : List String
  numPrevStage : Int
  numFromLatest : Int
  numFromPopular : Int
  numFromUserBased : Int
  numFromItemBased : Int
  numFromCollaborative : Int
  numFromOffline : Int

/-- `RestServer.createRecommendContext`: pulls `IgnoreItems(userId)` and
keeps the ids whose score (a Unix-second expiry) is `≤ now`. -/
def createRecommendContext (env : Env) (userId category : String) (n : Int) :
    Res RecommendContext × List StoreOp :=
  match env.getScores ignoreItemsKey userId 0 (-1) with
  | .error msg => (.error (.store msg), [.getScores ignoreItemsKey userId 0 (-1)])
  | .ok ignoreItems =>
    (.ok
      { userId := userId
        category := category
        userFeedback := none
        n := n
        results := []
        excludeSet := ignoreItems.foldl
          (fun s item => if item.score ≤ env.now then setAdd s item.id else s) []
        numPrevStage := 0
        numFromLatest := 0
        numFromPopular := 0
        numFromUserBased := 0
        numFromItemBased := 0
        numFromCollaborative := 0
        numFromOffline := 0 },
     [.getScores ignoreItemsKey userId 0 (-1)])

/-- `RestServer.requireUserFeedback`: loads `GetUserFeedback(userId, false)`
once per context and seeds the exclusion set with the item ids. -/
def requireUserFeedback (env : Env) (ctx : RecommendContext) :
    Res RecommendContext × List StoreOp :=
  match ctx.userFeedback with
  | some _ => (.ok ctx, [])
  | none =>
    match env.getUserFeedback ctx.userId false [] with
    | .error msg => (.error (.store msg), [.getUserFeedback ctx.userId false []])
    | .ok fb =>
      (.ok { ctx with
              userFeedback := some fb
              excludeSet := fb.foldl (fun s f => setAdd s f.itemId) ctx.excludeSet },
       [.getUserFeedback ctx.userId false []])

/-- The append loop shared by the ranked-list recommenders:
`for _, item := range items { if !excludeSet.Has(item.Id) { results = append(...);
excludeSet.Add(item.Id) } }`. -/
def appendUnseen (ctx : RecommendContext) (items : List Scored) : RecommendContext :=
  items.foldl
    (fun c item =>
      if item.id ∈ c.excludeSet then c
      else { c with results := c.results ++ [item.id],
                    excludeSet := setAdd c.excludeSet item.id })
    ctx

/-- A recommender: `type Recommender func(ctx *recommendContext) error`. -/
abbrev Recommender : Type :=
  Env → RecommendContext → Res RecommendContext × List StoreOp

/-- `RestServer.RecommendOffline`. -/
def RecommendOffline (env : Env) (ctx : RecommendContext) :
    Res RecommendContext × List StoreOp :=
  if (ctx.results.length : Int) < ctx.n then
    match getCategoryScores env offlineRecommendKey ctx.userId ctx.category 0 env.cacheSize with
    | (.error msg, ops) => (.error (.store msg), ops)
    | (.ok recommendation, ops) =>
      match filterOutHiddenScores env recommendation with
      | (.error e, ops2) => (.error e, ops ++ ops2)
      | (.ok filtered, ops2) =>
        let c1 := appendUnseen ctx filtered
        (.ok { c1 with
                numFromOffline := (c1.results.length : Int) - c1.numPrevStage,
                numPrevStage := (c1.results.length : Int) },
         ops ++ ops2)
  else (.ok ctx, [])

/-- `RestServer.RecommendCollaborative`. -/
def RecommendCollaborative (env : Env) (ctx : RecommendContext) :
    Res RecommendContext × List StoreOp :=
  if (ctx.results.length : Int) < ctx.n then
    match getCategoryScores env collaborativeRecommendKey ctx.userId ctx.category 0 env.cacheSize with
    | (.error msg, ops) => (.error (.store msg), ops)
    | (.ok recommendation, ops) =>
      match filterOutHiddenScores env recommendation with
      | (.error e, ops2) => (.error e, ops ++ ops2)
      | (.ok filtered, ops2) =>
        let c1 := appendUnseen ctx filtered
        (.ok { c1 with
                numFromCollaborative := (c1.results.length : Int) - c1.numPrevStage,
                numPrevStage := (c1.results.length : Int) },
         ops ++ ops2)
  else (.ok ctx, [])

/-- `candidates[id] += score` on a Go `map[string]float32`, modelled as an
association list with distinct keys (a missing key reads as 0). -/
def bump (m : List (String × Int)) (k : String) (v : Int) : List (String × Int) :=
  if m.any (fun p => p.1 = k) then
    m.map (fun p => if p.1 = k then (p.1, p.2 + v) else p)
  else m ++ [(k, v)]

/-- Modelled from the spec (§4.3): `base.TopKStringFilter` (its code is
outside `src/`): a capacity-`k` selector over `(id, score)` pairs whose
`PopAll` drains in descending-score order, ties broken lexicographically on
the id. -/
def topKOrd (a b : String × Int) : Prop :=
  b.2 < a.2 ∨ (a.2 = b.2 ∧ a.1 ≤ b.1)

instance : DecidableRel topKOrd := fun a b => by
  unfold topKOrd; infer_instance

/-- Modelled from the spec (§4.3): `Push` all candidates then `PopAll`,
keeping the best `k`. -/
def topK (k : Nat) (candidates : List (String × Int)) : List String :=
  ((candidates.insertionSort topKOrd).take k).map Prod.fst

/-- Inner loop of `RecommendUserBased` over one neighbor's (hidden-filtered)
feedback rows: skip already-excluded items, fetch the item, and accumulate
the neighbor's similarity when the category matches. -/
def collectNeighborFeedback (env : Env) (ctx : RecommendContext) (sim : Int) :
    List Feedback → List (String × Int) → Res (List (String × Int)) × List StoreOp
  | [], candidates => (.ok candidates, [])
  | fb :: rest, candidates =>
    if fb.itemId ∈ ctx.excludeSet then
      collectNeighborFeedback env ctx sim rest candidates
    else
      match env.getItem fb.itemId with
      | .error msg => (.error (.store msg), [.getItem fb.itemId])
      | .ok item =>
        let candidates1 :=
          if ctx.category = "" ∨ ctx.category ∈ item.categories then
            bump candidates fb.itemId sim
          else candidates
        match collectNeighborFeedback env ctx sim rest candidates1 with
        | (r, ops) => (r, .getItem fb.itemId :: ops)

/-- Outer loop of `RecommendUserBased` over the similar users. -/
def userBasedLoop (env : Env) (ctx : RecommendContext) :
    List Scored → List (String × Int) → Res (List (String × Int)) × List StoreOp
  | [], candidates => (.ok candidates, [])
  | user :: rest, candidates =>
    match env.getUserFeedback user.id false env.positiveFeedbackTypes with
    | .error msg =>
      (.error (.store msg), [.getUserFeedback user.id false env.positiveFeedbackTypes])
    | .ok feedbacks =>
      match filterOutHiddenFeedback env feedbacks with
      | (.error e, ops1) =>
        (.error e, .getUserFeedback user.id false env.positiveFeedbackTypes :: ops1)
      | (.ok feedbacks1, ops1) =>
        match collectNeighborFeedback env ctx user.score feedbacks1 candidates with
        | (.error e, ops2) =>
          (.error e, .getUserFeedback user.id false env.positiveFeedbackTypes :: (ops1 ++ ops2))
        | (.ok candidates1, ops2) =>
          match userBasedLoop env ctx rest candidates1 with
          | (r, ops3) =>
            (r, .getUserFeedback user.id false env.positiveFeedbackTypes ::
                  (ops1 ++ ops2 ++ ops3))

/-- `RestServer.RecommendUserBased`. -/
def RecommendUserBased (env : Env) (ctx : RecommendContext) :
    Res RecommendContext × List StoreOp :=
  if (ctx.results.length : Int) < ctx.n then
    match requireUserFeedback env ctx with
    | (.error e, ops0) => (.error e, ops0)
    | (.ok ctx1, ops0) =>
      match env.getScores userNeighborsKey ctx1.userId 0 env.cacheSize with
      | .error msg =>
        (.error (.store msg), ops0 ++ [.getScores userNeighborsKey ctx1.userId 0 env.cacheSize])
      | .ok similarUsers =>
        match userBasedLoop env ctx1 similarUsers [] with
        | (.error e, ops1) =>
          (.error e, ops0 ++ .getScores userNeighborsKey ctx1.userId 0 env.cacheSize :: ops1)
        | (.ok candidates, ops1) =>
          let ids := topK (ctx1.n - (ctx1.results.length : Int)).toNat candidates
          let c1 := { ctx1 with results := ctx1.results ++ ids,
                                excludeSet := setAddAll ctx1.excludeSet ids }
          (.ok { c1 with
                  numFromUserBased := (c1.results.length : Int) - c1.numPrevStage,
                  numPrevStage := (c1.results.length : Int) },
           ops0 ++ .getScores userNeighborsKey ctx1.userId 0 env.cacheSize :: ops1)
  else (.ok ctx, [])

/-- Loop of `RecommendItemBased` over the user's feedback: load each item's
neighbors, hidden-filter them, and accumulate scores of unseen neighbors. -/
def itemBasedLoop (env : Env) (ctx : RecommendContext) :
    List Feedback → List (String × Int) → Res (List (String × Int)) × List StoreOp
  | [], candidates => (.ok candidates, [])
  | fb :: rest, candidates =>
    match getCategoryScores env itemNeighborsKey fb.itemId ctx.category 0 env.cacheSize with
    | (.error msg, ops0) => (.error (.store msg), ops0)
    | (.ok similarItems, ops0) =>
      match filterOutHiddenScores env similarItems with
      | (.error e, ops1) => (.error e, ops0 ++ ops1)
      | (.ok similar1, ops1) =>
        let candidates1 := similar1.foldl
          (fun m it => if it.id ∈ ctx.excludeSet then m else bump m it.id it.score)
          candidates
        match itemBasedLoop env ctx rest candidates1 with
        | (r, ops2) => (r, ops0 ++ ops1 ++ ops2)

/-- `RestServer.RecommendItemBased`. -/
def RecommendItemBased (env : Env) (ctx : RecommendContext) :
    Res RecommendContext × List StoreOp :=
  if (ctx.results.length : Int) < ctx.n then
    match requireUserFeedback env ctx with
    | (.error e, ops0) => (.error e, ops0)
    | (.ok ctx1, ops0) =>
      match itemBasedLoop env ctx1 (ctx1.userFeedback.getD []) [] with
      | (.error e, ops1) => (.error e, ops0 ++ ops1)
      | (.ok candidates, ops1) =>
        let ids := topK (ctx1.n - (ctx1.results.length : Int)).toNat candidates
        let c1 := { ctx1 with results := ctx1.results ++ ids,
                              excludeSet := setAddAll ctx1.excludeSet ids }
        (.ok { c1 with
                numFromItemBased := (c1.results.length : Int) - c1.numPrevStage,
                numPrevStage := (c1.results.length : Int) },
         ops0 ++ ops1)
  else (.ok ctx, [])

/-- `RestServer.RecommendLatest`. -/
def RecommendLatest (env : Env) (ctx : RecommendContext) :
    Res RecommendContext × List StoreOp :=
  if (ctx.results.length : Int) < ctx.n then
    match requireUserFeedback env ctx with
    | (.error e, ops0) => (.error e, ops0)
    | (.ok ctx1, ops0) =>
      match env.getScores latestItemsKey ctx1.category 0 (ctx1.n - (ctx1.results.length : Int)) with
      | .error msg =>
        (.error (.store msg),
         ops0 ++ [.getScores latestItemsKey ctx1.category 0 (ctx1.n - (ctx1.results.length : Int))])
      | .ok items =>
        match filterOutHiddenScores env items with
        | (.error e, ops2) =>
          (.error e,
           ops0 ++ .getScores latestItemsKey ctx1.category 0 (ctx1.n - (ctx1.results.length : Int))
             :: ops2)
        | (.ok filtered, ops2) =>
          let c1 := appendUnseen ctx1 filtered
          (.ok { c1 with
                  numFromLatest := (c1.results.length : Int) - c1.numPrevStage,
                  numPrevStage := (c1.results.length : Int) },
           ops0 ++ .getScores latestItemsKey ctx1.category 0 (ctx1.n - (ctx1.results.length : Int))
             :: ops2)
  else (.ok ctx, [])

/-- `RestServer.RecommendPopular`. -/
def RecommendPopular (env : Env) (ctx : RecommendContext) :
    Res RecommendContext × List StoreOp :=
  if (ctx.results.length : Int) < ctx.n then
    match requireUserFeedback env ctx with
    | (.error e, ops0) => (.error e, ops0)
    | (.ok ctx1, ops0) =>
      match env.getScores popularItemsKey ctx1.category 0 (ctx1.n - (ctx1.results.length : Int)) with
      | .error msg =>
        (.error (.store msg),
         ops0 ++ [.getScores popularItemsKey ctx1.category 0 (ctx1.n - (ctx1.results.length : Int))])
      | .ok items =>
        match filterOutHiddenScores env items with
        | (.error e, ops2) =>
          (.error e,
           ops0 ++ .getScores popularItemsKey ctx1.category 0 (ctx1.n - (ctx1.results.length : Int))
             :: ops2)
        | (.ok filtered, ops2) =>
          let c1 := appendUnseen ctx1 filtered
          (.ok { c1 with
                  numFromPopular := (c1.results.length : Int) - c1.numPrevStage,
                  numPrevStage := (c1.results.length : Int) },
           ops0 ++ .getScores popularItemsKey ctx1.category 0 (ctx1.n - (ctx1.results.length : Int))
             :: ops2)
  else (.ok ctx, [])

/-- The recommender loop of `RestServer.Recommend`: run each recommender in
order, aborting on the first error. -/
def runRecommenders (env : Env) :
    List Recommender → RecommendContext → Res RecommendContext × List StoreOp
  | [], ctx => (.ok ctx, [])
  | r :: rest, ctx =>
    match r env ctx with
    | (.error e, ops) => (.error e, ops)
    | (.ok ctx1, ops) =>
      match runRecommenders env rest ctx1 with
      | (res2, ops2) => (res2, ops ++ ops2)

/-- The final truncation of `RestServer.Recommend`:
`if len(ctx.results) > n { ctx.results = ctx.results[:n] }`.  A Go slice
expression `s[:n]` panics when `n < 0`. -/
def truncateResults (results : List String) (n : Int) : Res (List String) :=
  if (results.length : Int) > n then
    if n < 0 then .error .panic else .ok (results.take n.toNat)
  else .ok results

/-- `RestServer.Recommend`: create the context, run the recommenders, and
truncate the accumulated results to `n`. -/
def Recommend (env : Env) (userId category : String) (n : Int)
    (recommenders : List Recommender) : Res (List String) × List StoreOp :=
  match createRecommendContext env userId category n with
  | (.error e, ops) => (.error e, ops)
  | (.ok ctx, ops0) =>
    match runRecommenders env recommenders ctx with
    | (.error e, ops1) => (.error e, ops0 ++ ops1)
    | (.ok ctx1, ops1) => (truncateResults ctx1.results n, ops0 ++ ops1)

/-- Go slice expression `s[off:]`: panics unless `0 ≤ off ≤ len(s)`. -/
def goDropFrom (xs : List String) (off : Int) : Res (List String) :=
  if 0 ≤ off ∧ off ≤ (xs.length : Int) then .ok (xs.drop off.toNat)
  else .error .panic

/-- `RestServer.InsertFeedbackToCache`: append each feedback row to
`IgnoreItems(userId)` with score `unix(timestamp)`, aborting on the first
cache error. -/
def insertFeedbackToCache (env : Env) : List Feedback → Res Unit × List StoreOp
  | [] => (.ok (), [])
  | v :: rest =>
    match env.appendScores ignoreItemsKey v.userId [⟨v.itemId, v.timestamp⟩] with
    | .error msg =>
      (.error (.store msg), [.appendScores ignoreItemsKey v.userId [⟨v.itemId, v.timestamp⟩]])
    | .ok _ =>
      match insertFeedbackToCache env rest with
      | (r, ops) => (r, .appendScores ignoreItemsKey v.userId [⟨v.itemId, v.timestamp⟩] :: ops)

/-- The synthetic write-back feedback row built by `getRecommend`:
`{userId, itemId, writeBackType, timestamp = now + writeBackDelay minutes}`. -/
def wbRow (env : Env) (userId writeBackType : String) (writeBackDelay : Int)
    (itemId : String) : Feedback :=
  { userId := userId
    itemId := itemId
    feedbackType := writeBackType
    timestamp := env.now + 60 * writeBackDelay }

/-- The write-back loop of `getRecommend`: for each returned item, insert the
synthetic row into the data store, then mirror it into the cache; the first
error at either store aborts the remaining write-backs. -/
def writeBack (env : Env) (userId writeBackType : String) (writeBackDelay : Int) :
    List String → Res Unit × List StoreOp
  | [] => (.ok (), [])
  | itemId :: rest =>
    let fb := wbRow env userId writeBackType writeBackDelay itemId
    match env.batchInsertFeedback [fb] false false false with
    | .error msg => (.error (.store msg), [.batchInsertFeedback [fb] false false false])
    | .ok _ =>
      match insertFeedbackToCache env [fb] with
      | (.error e, ops2) => (.error e, .batchInsertFeedback [fb] false false false :: ops2)
      | (.ok _, ops2) =>
        match writeBack env userId writeBackType writeBackDelay rest with
        | (r, ops3) => (r, .batchInsertFeedback [fb] false false false :: (ops2 ++ ops3))

/-- The fallback-name switch of `getRecommend`: an unknown name is an
internal error raised before any recommender runs. -/
def resolveFallback : String → Option Recommender
  | "collaborative" => some RecommendCollaborative
  | "item_based" => some RecommendItemBased
  | "user_based" => some RecommendUserBased
  | "latest" => some RecommendLatest
  | "popular" => some RecommendPopular
  | _ => none

/-- Resolve the configured fallback chain, failing on an unknown name. -/
def buildRecommenders : List String → Option (List Recommender)
  | [] => some []
  | name :: rest =>
    match resolveFallback name, buildRecommenders rest with
    | some r, some rs => some (r :: rs)
    | _, _ => none

/-- Parsed query/path parameters of `GET /recommend/{user-id}/{category}`. -/
structure RequestParams where
  userId : String
  category : String
  n : Int
  offset : Int
  writeBackType : String
  writeBackDelay : Int

/-- The core of `RestServer.getRecommend` after authentication and parameter
parsing: build the chain `[RecommendOffline] ++ fallback`, run the pipeline
with target `offset + n`, drop the first `offset` ids (`results[offset:]`),
then run the write-back loop when `write-back-type` is non-empty.  A store
error is answered with status 500 (`GoErr.store`). -/
def getRecommendCore (env : Env) (fallbackNames : List String) (p : RequestParams) :
    Res (List String) × List StoreOp :=
  match buildRecommenders fallbackNames with
  | none => (.error (.store "unknown fallback recommendation method"), [])
  | some fallback =>
    match Recommend env p.userId p.category (p.offset + p.n) (RecommendOffline :: fallback) with
    | (.error e, ops) => (.error e, ops)
    | (.ok results, ops) =>
      match goDropFrom results p.offset with
      | .error e => (.error e, ops)
      | .ok results1 =>
        if p.writeBackType ≠ "" then
          match writeBack env p.userId p.writeBackType p.writeBackDelay results1 with
          | (.error e, ops2) => (.error e, ops ++ ops2)
          | (.ok _, ops2) => (.ok results1, ops ++ ops2)
        else (.ok results1, ops)

/-- One decimal digit of `strconv.Atoi`. -/
def digitVal (c : Char) : Option Nat :=
  if '0' ≤ c ∧ c ≤ '9' then some (c.toNat - '0'.toNat) else none

/-- Accumulate decimal digits; fails on the first non-digit. -/
def digitsValAux : List Char → Nat → Option Nat
  | [], acc => some acc
  | c :: cs, acc =>
    match digitVal c with
    | none => none
    | some d => digitsValAux cs (acc * 10 + d)

/-- A non-empty run of decimal digits. -/
def parseDigits : List Char → Option Nat
  | [] => none
  | c :: cs => digitsValAux (c :: cs) 0

/-- `strconv.Atoi`: optional sign followed by at least one decimal digit.
The 64-bit range check is not modelled (no claim depends on overflow). -/
def goAtoi (s : String) : Except String Int :=
  match s.data with
  | [] => .error "invalid syntax"
  | c :: rest =>
    if c = '-' then
      match parseDigits rest with
      | some v => .ok (-(v : Int))
      | none => .error "invalid syntax"
    else if c = '+' then
      match parseDigits rest with
      | some v => .ok (v : Int)
      | none => .error "invalid syntax"
    else
      match parseDigits (c :: rest) with
      | some v => .ok (v : Int)
      | none => .error "invalid syntax"

/-- `server.ParseInt`: parse the query parameter, substituting the fallback
only when the parameter is absent (empty string). -/
def ParseIntQ (valueString : String) (fallback : Int) : Except String Int :=
  match goAtoi valueString with
  | .ok v => .ok v
  | .error e => if valueString = "" then .ok fallback else .error e

/-- Modelled from the spec (§4.1): the denotation of `GetScores` required of
any cache backend (the backends are outside `src/`): entries at the
inclusive index range `[b, e]` of the stored list, `e = -1` meaning "to the
end". -/
def sliceInclusive (l : List Scored) (b e : Int) : List Scored :=
  if e = -1 then l.drop b.toNat
  else (l.take (e.toNat + 1)).drop b.toNat

/-- Tags naming the six recommenders. -/
inductive StageTag where
  | offline | collaborative | itemBased | userBased | latest | popular
  deriving DecidableEq

/-- The recommender a tag names. -/
def stageOf : StageTag → Recommender
  | .offline => RecommendOffline
  | .collaborative => RecommendCollaborative
  | .itemBased => RecommendItemBased
  | .userBased => RecommendUserBased
  | .latest => RecommendLatest
  | .popular => RecommendPopular

/-- The per-stage counter a tag names. -/
def counterOf : StageTag → RecommendContext → Int
  | .offline, c => c.numFromOffline
  | .collaborative, c => c.numFromCollaborative
  | .itemBased, c => c.numFromItemBased
  | .userBased, c => c.numFromUserBased
  | .latest, c => c.numFromLatest
  | .popular, c => c.numFromPopular

/-- All six tags. -/
def allTags : List StageTag :=
  [.offline, .collaborative, .itemBased, .userBased, .latest, .popular]

/-- The six recommenders of the pipeline. -/
def sixRecommenders : List Recommender := allTags.map stageOf

/-- The sum of the six per-stage counters. -/
def counterSum (c : RecommendContext) : Int :=
  c.numFromOffline + c.numFromCollaborative + c.numFromItemBased +
    c.numFromUserBased + c.numFromLatest + c.numFromPopular

/-- The ids an append loop adds: the source ids not yet excluded, in source
order, each id excluding later duplicates.  (Specification-side companion of
`appendUnseen`, used to state what the loop contributes.) -/
def selectUnseen (ex : List String) : List Scored → List String
  | [] => []
  | x :: xs =>
    if x.id ∈ ex then selectUnseen ex xs
    else x.id :: selectUnseen (setAdd ex x.id) xs

/-- The exclusion set an append loop leaves behind. -/
def selectExclude (ex : List String) : List Scored → List String
  | [] => ex
  | x :: xs =>
    if x.id ∈ ex then selectExclude ex xs
    else selectExclude (setAdd ex x.id) xs

theorem mem_setAdd {s : List String} {x y : String} :
    y ∈ setAdd s x ↔ y = x ∨ y ∈ s := by
  by_cases h : x ∈ s <;> simp only [setAdd, h, if_true, if_false, List.mem_cons]
  constructor
  · exact Or.inr
  · rintro (rfl | hy) <;> [exact h; exact hy]

theorem mem_setAdd_of_mem {s : List String} {x y : String} (h : y ∈ s) :
    y ∈ setAdd s x := mem_setAdd.mpr (Or.inr h)

theorem mem_setAdd_self {s : List String} {x : String} : x ∈ setAdd s x :=
  mem_setAdd.mpr (Or.inl rfl)

theorem mem_setAddAll_of_mem {xs : List String} :
    ∀ {s : List String} {y : String}, y ∈ s → y ∈ setAddAll s xs := by
  unfold setAddAll
  induction xs with
  | nil => intro s y h; simpa using h
  | cons x xs ih =>
    intro s y h
    exact ih (mem_setAdd_of_mem h)

theorem mem_setAddAll_of_mem_arg {xs : List String} :
    ∀ {s : List String} {y : String}, y ∈ xs → y ∈ setAddAll s xs := by
  unfold setAddAll
  induction xs with
  | nil => intro s y h; simp at h
  | cons x xs ih =>
    intro s y h
    rcases List.mem_cons.mp h with rfl | h2
    · exact @mem_setAddAll_of_mem xs _ _ mem_setAdd_self
    · exact ih h2

theorem mem_foldl_setAdd {α : Type} (g : α → String) (l : List α) :
    ∀ {s : List String} {y : String}, y ∈ s →
      y ∈ l.foldl (fun s a => setAdd s (g a)) s := by
  induction l with
  | nil => intro s y h; simpa using h
  | cons a l ih =>
    intro s y h
    exact ih (mem_setAdd_of_mem h)

theorem mem_ignore_foldl (now : Int) (l : List Scored) :
    ∀ (s0 : List String) (x : String),
      (x ∈ l.foldl (fun s item => if item.score ≤ now then setAdd s item.id else s) s0 ↔
        x ∈ s0 ∨ ∃ it ∈ l, it.id = x ∧ it.score ≤ now) := by
  induction l with
  | nil => intro s0 x; simp
  | cons a l ih =>
    intro s0 x
    simp only [List.foldl_cons]
    by_cases ha : a.score ≤ now
    · rw [if_pos ha, ih, mem_setAdd]
      constructor
      · rintro ((rfl | hs) | ⟨it, hit, rfl, hsc⟩)
        · exact Or.inr ⟨a, List.mem_cons_self a l, rfl, ha⟩
        · exact Or.inl hs
        · exact Or.inr ⟨it, List.mem_cons_of_mem a hit, rfl, hsc⟩
      · rintro (hs | ⟨it, hit, rfl, hsc⟩)
        · exact Or.inl (Or.inr hs)
        · rcases List.mem_cons.mp hit with rfl | hit2
          · exact Or.inl (Or.inl rfl)
          · exact Or.inr ⟨it, hit2, rfl, hsc⟩
    · rw [if_neg ha, ih]
      constructor
      · rintro (hs | ⟨it, hit, rfl, hsc⟩)
        · exact Or.inl hs
        · exact Or.inr ⟨it, List.mem_cons_of_mem a hit, rfl, hsc⟩
      · rintro (hs | ⟨it, hit, rfl, hsc⟩)
        · exact Or.inl hs
        · rcases List.mem_cons.mp hit with rfl | hit2
          · exact absurd hsc ha
          · exact Or.inr ⟨it, hit2, rfl, hsc⟩

theorem appendUnseen_eq (items : List Scored) :
    ∀ ctx : RecommendContext,
      appendUnseen ctx items =
        { ctx with results := ctx.results ++ selectUnseen ctx.excludeSet items,
                   excludeSet := selectExclude ctx.excludeSet items } := by
  induction items with
  | nil => intro ctx; simp [appendUnseen, selectUnseen, selectExclude]
  | cons x xs ih =>
    intro ctx
    have hstep : appendUnseen ctx (x :: xs) =
        appendUnseen (if x.id ∈ ctx.excludeSet then ctx
          else { ctx with results := ctx.results ++ [x.id],
                          excludeSet := setAdd ctx.excludeSet x.id }) xs := rfl
    by_cases h : x.id ∈ ctx.excludeSet
    · rw [hstep, if_pos h]
      simp only [selectUnseen, selectExclude, if_pos h]
      exact ih ctx
    · rw [hstep, if_neg h, ih]
      simp only [selectUnseen, selectExclude, if_neg h]
      simp [List.append_assoc]

theorem mem_selectExclude_of_mem (items : List Scored) :
    ∀ {ex : List String} {x : String}, x ∈ ex → x ∈ selectExclude ex items := by
  induction items with
  | nil => intro ex x h; simpa [selectExclude] using h
  | cons a l ih =>
    intro ex x h
    by_cases ha : a.id ∈ ex
    · simpa [selectExclude, ha] using ih h
    · simpa [selectExclude, ha] using ih (mem_setAdd_of_mem h)

theorem selectUnseen_subset_selectExclude (items : List Scored) :
    ∀ {ex : List String} {x : String},
      x ∈ selectUnseen ex items → x ∈ selectExclude ex items := by
  induction items with
  | nil => intro ex x h; simp [selectUnseen] at h
  | cons a l ih =>
    intro ex x h
    by_cases ha : a.id ∈ ex
    · simp only [selectUnseen, if_pos ha] at h
      simpa [selectExclude, ha] using ih h
    · simp only [selectUnseen, if_neg ha, List.mem_cons] at h
      rcases h with rfl | h2
      · simpa [selectExclude, ha] using
          mem_selectExclude_of_mem l (mem_setAdd_self (s := ex) (x := a.id))
      · simpa [selectExclude, ha] using ih h2

theorem selectUnseen_not_mem (items : List Scored) :
    ∀ {ex : List String} {x : String}, x ∈ selectUnseen ex items → x ∉ ex := by
  induction items with
  | nil => intro ex x h; simp [selectUnseen] at h
  | cons a l ih =>
    intro ex x h
    by_cases ha : a.id ∈ ex
    · simp only [selectUnseen, if_pos ha] at h
      exact ih h
    · simp only [selectUnseen, if_neg ha, List.mem_cons] at h
      rcases h with rfl | h2
      · exact ha
      · intro hx
        exact ih h2 (mem_setAdd_of_mem hx)

theorem selectUnseen_nodup (items : List Scored) :
    ∀ {ex : List String}, (selectUnseen ex items).Nodup := by
  induction items with
  | nil => intro ex; simp [selectUnseen]
  | cons a l ih =>
    intro ex
    by_cases ha : a.id ∈ ex
    · simpa [selectUnseen, ha] using ih
    · simp only [selectUnseen, if_neg ha, List.nodup_cons]
      refine ⟨fun hmem => ?_, ih⟩
      exact selectUnseen_not_mem l hmem mem_setAdd_self

theorem counterSum_update (t : StageTag) (c c' : RecommendContext)
    (h : ∀ t2, t2 ≠ t → counterOf t2 c' = counterOf t2 c) :
    counterSum c' = counterSum c - counterOf t c + counterOf t c' := by
  cases t
  case offline =>
    have h1 := h .collaborative (by simp)
    have h2 := h .itemBased (by simp)
    have h3 := h .userBased (by simp)
    have h4 := h .latest (by simp)
    have h5 := h .popular (by simp)
    simp only [counterOf] at h1 h2 h3 h4 h5 ⊢
    simp only [counterSum]
    omega
  case collaborative =>
    have h1 := h .offline (by simp)
    have h2 := h .itemBased (by simp)
    have h3 := h .userBased (by simp)
    have h4 := h .latest (by simp)
    have h5 := h .popular (by simp)
    simp only [counterOf] at h1 h2 h3 h4 h5 ⊢
    simp only [counterSum]
    omega
  case itemBased =>
    have h1 := h .offline (by simp)
    have h2 := h .collaborative (by simp)
    have h3 := h .userBased (by simp)
    have h4 := h .latest (by simp)
    have h5 := h .popular (by simp)
    simp only [counterOf] at h1 h2 h3 h4 h5 ⊢
    simp only [counterSum]
    omega
  case userBased =>
    have h1 := h .offline (by simp)
    have h2 := h .collaborative (by simp)
    have h3 := h .itemBased (by simp)
    have h4 := h .latest (by simp)
    have h5 := h .popular (by simp)
    simp only [counterOf] at h1 h2 h3 h4 h5 ⊢
    simp only [counterSum]
    omega
  case latest =>
    have h1 := h .offline (by simp)
    have h2 := h .collaborative (by simp)
    have h3 := h .itemBased (by simp)
    have h4 := h .userBased (by simp)
    have h5 := h .popular (by simp)
    simp only [counterOf] at h1 h2 h3 h4 h5 ⊢
    simp only [counterSum]
    omega
  case popular =>
    have h1 := h .offline (by simp)
    have h2 := h .collaborative (by simp)
    have h3 := h .itemBased (by simp)
    have h4 := h .userBased (by simp)
    have h5 := h .latest (by simp)
    simp only [counterOf] at h1 h2 h3 h4 h5 ⊢
    simp only [counterSum]
    omega

theorem requireUserFeedback_ok {env : Env} {ctx ctx' : RecommendContext}
    {ops : List StoreOp} (h : requireUserFeedback env ctx = (.ok ctx', ops)) :
    ctx'.results = ctx.results ∧ ctx'.n = ctx.n ∧ ctx'.userId = ctx.userId ∧
      ctx'.category = ctx.category ∧ ctx'.numPrevStage = ctx.numPrevStage ∧
      (∀ t, counterOf t ctx' = counterOf t ctx) ∧
      (∀ x ∈ ctx.excludeSet, x ∈ ctx'.excludeSet) := by
  unfold requireUserFeedback at h
  split at h
  · simp only [Prod.mk.injEq, Except.ok.injEq] at h
    obtain ⟨rfl, -⟩ := h
    exact ⟨rfl, rfl, rfl, rfl, rfl, fun t => rfl, fun x hx => hx⟩
  · split at h
    · simp at h
    · simp only [Prod.mk.injEq, Except.ok.injEq] at h
      obtain ⟨h1, -⟩ := h
      subst h1
      refine ⟨rfl, rfl, rfl, rfl, rfl, fun t => ?_, fun x hx => ?_⟩
      · cases t <;> rfl
      · exact mem_foldl_setAdd Feedback.itemId _ hx

/-- The invariant of a candidates map during accumulation: distinct keys,
none of them excluded. -/
def candInv (ex : List String) (m : List (String × Int)) : Prop :=
  (m.map Prod.fst).Nodup ∧ ∀ p ∈ m, p.1 ∉ ex

theorem candInv_nil (ex : List String) : candInv ex [] := ⟨List.nodup_nil, by simp⟩

theorem candInv_bump {ex : List String} {m : List (String × Int)} {k : String}
    {v : Int} (h : candInv ex m) (hk : k ∉ ex) : candInv ex (bump m k v) := by
  obtain ⟨hnd, hmem⟩ := h
  unfold bump
  split
  · refine ⟨?_, ?_⟩
    · have hmap : (m.map fun p => if p.1 = k then (p.1, p.2 + v) else p).map Prod.fst
          = m.map Prod.fst := by
        rw [List.map_map]
        apply List.map_congr_left
        intro q _
        by_cases hq : q.1 = k <;> simp [hq]
      rw [hmap]
      exact hnd
    · intro p hp
      rcases List.mem_map.mp hp with ⟨q, hq, rfl⟩
      by_cases hq2 : q.1 = k <;> simp only [hq2, if_true, if_false] <;>
        first
          | exact hmem q hq
          | simpa [hq2] using hmem q hq
  · rename_i hany
    refine ⟨?_, ?_⟩
    · rw [List.map_append]
      rw [List.nodup_append]
      refine ⟨hnd, List.nodup_singleton k, ?_⟩
      intro a ha hb
      simp only [List.map_cons, List.map_nil, List.mem_singleton] at hb
      subst hb
      rcases List.mem_map.mp ha with ⟨q, hq, hq1⟩
      apply hany
      simp only [List.any_eq_true, decide_eq_true_eq]
      exact ⟨q, hq, hq1⟩
    · intro p hp
      rcases List.mem_append.mp hp with hp1 | hp2
      · exact hmem p hp1
      · simp only [List.mem_singleton] at hp2
        subst hp2
        exact hk

theorem collectNeighborFeedback_candInv {env : Env} {ctx : RecommendContext}
    {sim : Int} :
    ∀ (fbs : List Feedback) (m m' : List (String × Int)),
      candInv ctx.excludeSet m →
      (collectNeighborFeedback env ctx sim fbs m).fst = .ok m' →
      candInv ctx.excludeSet m' := by
  intro fbs
  induction fbs with
  | nil =>
    intro m m' hm h
    simp only [collectNeighborFeedback, Except.ok.injEq] at h
    exact h ▸ hm
  | cons fb rest ih =>
    intro m m' hm h
    unfold collectNeighborFeedback at h
    split at h
    · exact ih m m' hm h
    · rename_i hnotin
      split at h
      · simp at h
      · split at h
        · exact ih _ m' (candInv_bump hm hnotin) h
        · exact ih _ m' hm h

theorem userBasedLoop_candInv {env : Env} {ctx : RecommendContext} :
    ∀ (users : List Scored) (m m' : List (String × Int)),
      candInv ctx.excludeSet m →
      (userBasedLoop env ctx users m).fst = .ok m' →
      candInv ctx.excludeSet m' := by
  intro users
  induction users with
  | nil =>
    intro m m' hm h
    simp only [userBasedLoop, Except.ok.injEq] at h
    exact h ▸ hm
  | cons user rest ih =>
    intro m m' hm h
    unfold userBasedLoop at h
    split at h
    · simp at h
    · split at h
      · simp at h
      · split at h
        · simp at h
        · rename_i feedbacks1 ops1 hfilter candidates1 ops2 hcollect
          split at h
          rename_i r ops3 heq
          simp only at h
          subst h
          apply ih _ m' _ (by rw [heq])
          exact collectNeighborFeedback_candInv _ m candidates1 hm (by rw [hcollect])

theorem foldl_bump_candInv {ex : List String} (items : List Scored) :
    ∀ m : List (String × Int), candInv ex m →
      candInv ex (items.foldl
        (fun m it => if it.id ∈ ex then m else bump m it.id it.score) m) := by
  induction items with
  | nil => intro m hm; simpa using hm
  | cons it rest ih =>
    intro m hm
    simp only [List.foldl_cons]
    by_cases hin : it.id ∈ ex
    · rw [if_pos hin]; exact ih m hm
    · rw [if_neg hin]; exact ih _ (candInv_bump hm hin)

theorem itemBasedLoop_candInv {env : Env} {ctx : RecommendContext} :
    ∀ (fbs : List Feedback) (m m' : List (String × Int)),
      candInv ctx.excludeSet m →
      (itemBasedLoop env ctx fbs m).fst = .ok m' →
      candInv ctx.excludeSet m' := by
  intro fbs
  induction fbs with
  | nil =>
    intro m m' hm h
    simp only [itemBasedLoop, Except.ok.injEq] at h
    exact h ▸ hm
  | cons fb rest ih =>
    intro m m' hm h
    unfold itemBasedLoop at h
    split at h
    · simp at h
    · split at h
      · simp at h
      · rename_i similar1 ops1 hfilter
        exact ih _ m' (foldl_bump_candInv similar1 m hm) h

theorem topK_mem {k : Nat} {cands : List (String × Int)} {id : String}
    (h : id ∈ topK k cands) : ∃ v : Int, (id, v) ∈ cands := by
  unfold topK at h
  rcases List.mem_map.mp h with ⟨p, hp, rfl⟩
  have hp2 : p ∈ cands.insertionSort topKOrd := List.take_subset _ _ hp
  have hp3 : p ∈ cands := (List.mem_insertionSort topKOrd).mp hp2
  exact ⟨p.2, hp3⟩

theorem topK_nodup {k : Nat} {cands : List (String × Int)}
    (h : (cands.map Prod.fst).Nodup) : (topK k cands).Nodup := by
  unfold topK
  have hperm : List.Perm ((cands.insertionSort topKOrd).map Prod.fst)
      (cands.map Prod.fst) :=
    (List.perm_insertionSort topKOrd cands).map Prod.fst
  have hnd : ((cands.insertionSort topKOrd).map Prod.fst).Nodup :=
    hperm.symm.nodup h
  have hsub : List.Sublist (((cands.insertionSort topKOrd).take k).map Prod.fst)
      ((cands.insertionSort topKOrd).map Prod.fst) :=
    (List.take_sublist k _).map Prod.fst
  exact hnd.sublist hsub

/-- What one successful, actually invoked recommender does to the context:
it appends a duplicate-free block of ids that were not excluded when the
stage started, records them in the (grown) exclusion set, restamps
`numPrevStage`, sets its own counter to its contribution measured from
`numPrevStage`, and leaves the other five counters alone. -/
def StageInvoked (t : StageTag) (ctx ctx' : RecommendContext) : Prop :=
  ∃ (ex1 : List String) (ids : List String),
    (∀ x ∈ ctx.excludeSet, x ∈ ex1) ∧
    ids.Nodup ∧
    (∀ id ∈ ids, id ∉ ex1) ∧
    ctx'.results = ctx.results ++ ids ∧
    (∀ x ∈ ex1, x ∈ ctx'.excludeSet) ∧
    (∀ id ∈ ids, id ∈ ctx'.excludeSet) ∧
    ctx'.n = ctx.n ∧
    ctx'.numPrevStage = (ctx'.results.length : Int) ∧
    counterOf t ctx' = (ctx'.results.length : Int) - ctx.numPrevStage ∧
    (∀ t2, t2 ≠ t → counterOf t2 ctx' = counterOf t2 ctx)

/-- A successful recommender either skipped (target already met) or was
invoked. -/
def StageStep (t : StageTag) (ctx ctx' : RecommendContext) : Prop :=
  ctx' = ctx ∨ StageInvoked t ctx ctx'

theorem recommendOffline_shape {env : Env} {ctx ctx' : RecommendContext}
    {ops : List StoreOp} (h : RecommendOffline env ctx = (.ok ctx', ops)) :
    StageStep .offline ctx ctx' := by
  unfold RecommendOffline at h
  split at h
  · split at h
    · simp at h
    · split at h
      · simp at h
      · rename_i recommendation ops1 hget filtered ops2 hfilter
        simp only [Prod.mk.injEq, Except.ok.injEq] at h
        obtain ⟨h1, -⟩ := h
        subst h1
        right
        rw [appendUnseen_eq filtered ctx]
        refine ⟨ctx.excludeSet, selectUnseen ctx.excludeSet filtered, fun x hx => hx,
          selectUnseen_nodup filtered, fun id hid => selectUnseen_not_mem filtered hid,
          rfl, ?_, ?_, rfl, rfl, rfl, ?_⟩
        · intro x hx
          exact mem_selectExclude_of_mem filtered hx
        · intro id hid
          exact selectUnseen_subset_selectExclude filtered hid
        · intro t2 ht2
          cases t2 <;> first | rfl | exact absurd rfl ht2
  · simp only [Prod.mk.injEq, Except.ok.injEq] at h
    exact Or.inl h.1.symm

theorem recommendCollaborative_shape {env : Env} {ctx ctx' : RecommendContext}
    {ops : List StoreOp} (h : RecommendCollaborative env ctx = (.ok ctx', ops)) :
    StageStep .collaborative ctx ctx' := by
  unfold RecommendCollaborative at h
  split at h
  · split at h
    · simp at h
    · split at h
      · simp at h
      · rename_i recommendation ops1 hget filtered ops2 hfilter
        simp only [Prod.mk.injEq, Except.ok.injEq] at h
        obtain ⟨h1, -⟩ := h
        subst h1
        right
        rw [appendUnseen_eq filtered ctx]
        refine ⟨ctx.excludeSet, selectUnseen ctx.excludeSet filtered, fun x hx => hx,
          selectUnseen_nodup filtered, fun id hid => selectUnseen_not_mem filtered hid,
          rfl, ?_, ?_, rfl, rfl, rfl, ?_⟩
        · intro x hx
          exact mem_selectExclude_of_mem filtered hx
        · intro id hid
          exact selectUnseen_subset_selectExclude filtered hid
        · intro t2 ht2
          cases t2 <;> first | rfl | exact absurd rfl ht2
  · simp only [Prod.mk.injEq, Except.ok.injEq] at h
    exact Or.inl h.1.symm

theorem recommendLatest_shape {env : Env} {ctx ctx' : RecommendContext}
    {ops : List StoreOp} (h : RecommendLatest env ctx = (.ok ctx', ops)) :
    StageStep .latest ctx ctx' := by
  unfold RecommendLatest at h
  split at h
  · split at h
    · simp at h
    · rename_i ctx1 ops0 hreq
      obtain ⟨hres, hn, huid, hcat, hprev, hcnt, hsub⟩ := requireUserFeedback_ok hreq
      split at h
      · simp at h
      · split at h
        · simp at h
        · rename_i items hget filtered ops2 hfilter
          simp only [Prod.mk.injEq, Except.ok.injEq] at h
          obtain ⟨h1, -⟩ := h
          subst h1
          right
          rw [appendUnseen_eq filtered ctx1]
          refine ⟨ctx1.excludeSet, selectUnseen ctx1.excludeSet filtered,
            fun x hx => hsub x hx,
            selectUnseen_nodup filtered, fun id hid => selectUnseen_not_mem filtered hid,
            ?_, ?_, ?_, ?_, rfl, ?_, ?_⟩
          · show ctx1.results ++ _ = ctx.results ++ _
            rw [hres]
          · intro x hx
            exact mem_selectExclude_of_mem filtered hx
          · intro id hid
            exact selectUnseen_subset_selectExclude filtered hid
          · exact hn
          · show (ctx1.results ++ _).length - ctx1.numPrevStage = _
            rw [hprev]
          · intro t2 ht2
            have h2 := hcnt t2
            cases t2 <;> first | (exact h2) | exact absurd rfl ht2
  · simp only [Prod.mk.injEq, Except.ok.injEq] at h
    exact Or.inl h.1.symm

theorem recommendPopular_shape {env : Env} {ctx ctx' : RecommendContext}
    {ops : List StoreOp} (h : RecommendPopular env ctx = (.ok ctx', ops)) :
    StageStep .popular ctx ctx' := by
  unfold RecommendPopular at h
  split at h
  · split at h
    · simp at h
    · rename_i ctx1 ops0 hreq
      obtain ⟨hres, hn, huid, hcat, hprev, hcnt, hsub⟩ := requireUserFeedback_ok hreq
      split at h
      · simp at h
      · split at h
        · simp at h
        · rename_i items hget filtered ops2 hfilter
          simp only [Prod.mk.injEq, Except.ok.injEq] at h
          obtain ⟨h1, -⟩ := h
          subst h1
          right
          rw [appendUnseen_eq filtered ctx1]
          refine ⟨ctx1.excludeSet, selectUnseen ctx1.excludeSet filtered,
            fun x hx => hsub x hx,
            selectUnseen_nodup filtered, fun id hid => selectUnseen_not_mem filtered hid,
            ?_, ?_, ?_, ?_, rfl, ?_, ?_⟩
          · show ctx1.results ++ _ = ctx.results ++ _
            rw [hres]
          · intro x hx
            exact mem_selectExclude_of_mem filtered hx
          · intro id hid
            exact selectUnseen_subset_selectExclude filtered hid
          · exact hn
          · show (ctx1.results ++ _).length - ctx1.numPrevStage = _
            rw [hprev]
          · intro t2 ht2
            have h2 := hcnt t2
            cases t2 <;> first | (exact h2) | exact absurd rfl ht2
  · simp only [Prod.mk.injEq, Except.ok.injEq] at h
    exact Or.inl h.1.symm

theorem recommendUserBased_shape {env : Env} {ctx ctx' : RecommendContext}
    {ops : List StoreOp} (h : RecommendUserBased env ctx = (.ok ctx', ops)) :
    StageStep .userBased ctx ctx' := by
  unfold RecommendUserBased at h
  split at h
  · split at h
    · simp at h
    · rename_i ctx1 ops0 hreq
      obtain ⟨hres, hn, huid, hcat, hprev, hcnt, hsub⟩ := requireUserFeedback_ok hreq
      split at h
      · simp at h
      · rename_i similarUsers hget
        split at h
        · simp at h
        · rename_i candidates ops1 hloop
          simp only [Prod.mk.injEq, Except.ok.injEq] at h
          obtain ⟨h1, -⟩ := h
          subst h1
          right
          have hinv : candInv ctx1.excludeSet candidates :=
            userBasedLoop_candInv similarUsers [] candidates
              (candInv_nil ctx1.excludeSet) (by rw [hloop])
          refine ⟨ctx1.excludeSet,
            topK (ctx1.n - (ctx1.results.length : Int)).toNat candidates,
            fun x hx => hsub x hx, topK_nodup hinv.1, ?_, ?_, ?_, ?_, ?_, rfl, ?_, ?_⟩
          · intro id hid
            obtain ⟨v, hv⟩ := topK_mem hid
            exact hinv.2 (id, v) hv
          · show ctx1.results ++ _ = ctx.results ++ _
            rw [hres]
          · intro x hx
            exact mem_setAddAll_of_mem hx
          · intro id hid
            exact mem_setAddAll_of_mem_arg hid
          · exact hn
          · show (ctx1.results ++ _).length - ctx1.numPrevStage = _
            rw [hprev]
          · intro t2 ht2
            have h2 := hcnt t2
            cases t2 <;> first | (exact h2) | exact absurd rfl ht2
  · simp only [Prod.mk.injEq, Except.ok.injEq] at h
    exact Or.inl h.1.symm

theorem recommendItemBased_shape {env : Env} {ctx ctx' : RecommendContext}
    {ops : List StoreOp} (h : RecommendItemBased env ctx = (.ok ctx', ops)) :
    StageStep .itemBased ctx ctx' := by
  unfold RecommendItemBased at h
  split at h
  · split at h
    · simp at h
    · rename_i ctx1 ops0 hreq
      obtain ⟨hres, hn, huid, hcat, hprev, hcnt, hsub⟩ := requireUserFeedback_ok hreq
      split at h
      · simp at h
      · rename_i candidates ops1 hloop
        simp only [Prod.mk.injEq, Except.ok.injEq] at h
        obtain ⟨h1, -⟩ := h
        subst h1
        right
        have hinv : candInv ctx1.excludeSet candidates :=
          itemBasedLoop_candInv (ctx1.userFeedback.getD []) [] candidates
            (candInv_nil ctx1.excludeSet) (by rw [hloop])
        refine ⟨ctx1.excludeSet,
          topK (ctx1.n - (ctx1.results.length : Int)).toNat candidates,
          fun x hx => hsub x hx, topK_nodup hinv.1, ?_, ?_, ?_, ?_, ?_, rfl, ?_, ?_⟩
        · intro id hid
          obtain ⟨v, hv⟩ := topK_mem hid
          exact hinv.2 (id, v) hv
        · show ctx1.results ++ _ = ctx.results ++ _
          rw [hres]
        · intro x hx
          exact mem_setAddAll_of_mem hx
        · intro id hid
          exact mem_setAddAll_of_mem_arg hid
        · exact hn
        · show (ctx1.results ++ _).length - ctx1.numPrevStage = _
          rw [hprev]
        · intro t2 ht2
          have h2 := hcnt t2
          cases t2 <;> first | (exact h2) | exact absurd rfl ht2
  · simp only [Prod.mk.injEq, Except.ok.injEq] at h
    exact Or.inl h.1.symm

/-- All six recommenders satisfy the shape contract. -/
theorem stage_shape {t : StageTag} {env : Env} {ctx ctx' : RecommendContext}
    {ops : List StoreOp} (h : stageOf t env ctx = (.ok ctx', ops)) :
    StageStep t ctx ctx' := by
  cases t
  case offline => exact recommendOffline_shape h
  case collaborative => exact recommendCollaborative_shape h
  case itemBased => exact recommendItemBased_shape h
  case userBased => exact recommendUserBased_shape h
  case latest => exact recommendLatest_shape h
  case popular => exact recommendPopular_shape h

theorem createRecommendContext_ok {env : Env} {u cat : String} {n : Int}
    {ctx : RecommendContext} {ops : List StoreOp}
    (h : createRecommendContext env u cat n = (.ok ctx, ops)) :
    ctx.results = [] ∧ ctx.numPrevStage = 0 ∧ (∀ t, counterOf t ctx = 0) ∧
      ctx.n = n ∧ counterSum ctx = 0 := by
  unfold createRecommendContext at h
  split at h
  · simp at h
  · simp only [Prod.mk.injEq, Except.ok.injEq] at h
    obtain ⟨h1, -⟩ := h
    subst h1
    exact ⟨rfl, rfl, fun t => by cases t <;> rfl, rfl, rfl⟩

theorem stage_skip {env : Env} {ctx : RecommendContext} (r : Recommender)
    (hr : r ∈ sixRecommenders) (h : ctx.n ≤ (ctx.results.length : Int)) :
    r env ctx = (.ok ctx, []) := by
  have hnot : ¬ ((ctx.results.length : Int) < ctx.n) := not_lt.mpr h
  simp only [sixRecommenders, allTags, List.map_cons, List.map_nil, List.mem_cons,
    List.not_mem_nil, or_false, stageOf] at hr
  rcases hr with rfl | rfl | rfl | rfl | rfl | rfl
  · unfold RecommendOffline
    exact if_neg hnot
  · unfold RecommendCollaborative
    exact if_neg hnot
  · unfold RecommendItemBased
    exact if_neg hnot
  · unfold RecommendUserBased
    exact if_neg hnot
  · unfold RecommendLatest
    exact if_neg hnot
  · unfold RecommendPopular
    exact if_neg hnot

theorem runRecommenders_inv {env : Env} (P : RecommendContext → Prop)
    (hstep : ∀ t ctx ctx', P ctx → StageInvoked t ctx ctx' → P ctx') :
    ∀ (recs : List Recommender), (∀ r ∈ recs, r ∈ sixRecommenders) →
      ∀ (ctx ctx' : RecommendContext) (ops : List StoreOp), P ctx →
        runRecommenders env recs ctx = (.ok ctx', ops) → P ctx' := by
  intro recs
  induction recs with
  | nil =>
    intro _ ctx ctx' ops hP h
    simp only [runRecommenders, Prod.mk.injEq, Except.ok.injEq] at h
    exact h.1 ▸ hP
  | cons r rest ih =>
    intro hchain ctx ctx' ops hP h
    unfold runRecommenders at h
    split at h
    · simp at h
    · rename_i ctx1 ops1 heq
      rcases h2 : runRecommenders env rest ctx1 with ⟨res2, ops2⟩
      rw [h2] at h
      simp only [Prod.mk.injEq] at h
      obtain ⟨h3, -⟩ := h
      have hr6 : r ∈ sixRecommenders := hchain r (List.mem_cons_self r rest)
      obtain ⟨t, -, hts⟩ := List.mem_map.mp hr6
      have heq2 : stageOf t env ctx = (.ok ctx1, ops1) := by rw [hts]; exact heq
      have hP1 : P ctx1 := by
        rcases stage_shape heq2 with rfl | hinv
        · exact hP
        · exact hstep t ctx ctx1 hP hinv
      exact ih (fun r2 hr2 => hchain r2 (List.mem_cons_of_mem r hr2)) ctx1 ctx' ops2 hP1
        (by rw [h2, h3])

theorem runRecommenders_counters {env : Env} :
    ∀ (tags : List StageTag) (ctx ctx' : RecommendContext) (ops : List StoreOp),
      tags.Nodup →
      (∀ t ∈ tags, counterOf t ctx = 0) →
      ctx.numPrevStage = (ctx.results.length : Int) →
      counterSum ctx = (ctx.results.length : Int) →
      runRecommenders env (tags.map stageOf) ctx = (.ok ctx', ops) →
      counterSum ctx' = (ctx'.results.length : Int) := by
  intro tags
  induction tags with
  | nil =>
    intro ctx ctx' ops _ _ _ hsum h
    simp only [List.map_nil, runRecommenders, Prod.mk.injEq, Except.ok.injEq] at h
    exact h.1 ▸ hsum
  | cons t rest ih =>
    intro ctx ctx' ops hnd hzero hprev hsum h
    simp only [List.map_cons] at h
    unfold runRecommenders at h
    split at h
    · simp at h
    · rename_i ctx1 ops1 heq
      rcases h2 : runRecommenders env (rest.map stageOf) ctx1 with ⟨res2, ops2⟩
      rw [h2] at h
      simp only [Prod.mk.injEq] at h
      obtain ⟨h3, -⟩ := h
      have hrun : runRecommenders env (rest.map stageOf) ctx1 = (.ok ctx', ops2) := by
        rw [h2, h3]
      rcases stage_shape heq with rfl | hinv
      · exact ih _ ctx' ops2 (List.Nodup.of_cons hnd)
          (fun t2 ht2 => hzero t2 (List.mem_cons_of_mem t ht2)) hprev hsum hrun
      · obtain ⟨ex1, ids, -, -, -, -, -, -, -, hprev1, hcntT, hcnt2⟩ := hinv
        have hzeroT : counterOf t ctx = 0 := hzero t (List.mem_cons_self t rest)
        have hupd := counterSum_update t ctx ctx1 hcnt2
        have hsum1 : counterSum ctx1 = (ctx1.results.length : Int) := by omega
        apply ih ctx1 ctx' ops2 (List.Nodup.of_cons hnd) ?_ hprev1 hsum1 hrun
        intro t2 ht2
        have hne : t2 ≠ t := by
          intro hteq
          subst hteq
          exact (List.nodup_cons.mp hnd).1 ht2
        rw [hcnt2 t2 hne]
        exact hzero t2 (List.mem_cons_of_mem t ht2)

theorem truncateResults_ok_length {rs out : List String} {n : Int}
    (h : truncateResults rs n = .ok out) : (out.length : Int) ≤ n := by
  unfold truncateResults at h
  split at h
  · split at h
    · simp at h
    · rename_i hgt hnneg
      simp only [Except.ok.injEq] at h
      subst h
      rw [List.length_take]
      omega
  · rename_i hle
    simp only [Except.ok.injEq] at h
    subst h
    exact not_lt.mp hle

/-- A store environment where every list read returns the empty list, no
item is hidden, and every write succeeds. -/
def envEmptyAll : Env :=
  { getScores := fun _ _ _ _ => .ok []
    existsCheck := fun _ names => .ok (names.map fun _ => 0)
    getUserFeedback := fun _ _ _ => .ok []
    getItem := fun i => .ok ⟨i, false, [], 0, []⟩
    batchInsertFeedback := fun _ _ _ _ => .ok ()
    appendScores := fun _ _ _ => .ok ()
    now := 1000
    cacheSize := 10
    positiveFeedbackTypes := [] }

/-- A store environment whose offline-recommendation keyspace holds two
items `a`, `b`; every other list is empty. -/
def envC2 : Env :=
  { envEmptyAll with
    getScores := fun p _ _ _ =>
      if p = offlineRecommendKey then .ok [⟨"a", 9⟩, ⟨"b", 8⟩] else .ok [] }

/-- The context `createRecommendContext envC2 "u1" "" 1` builds. -/
def c2ctx0 : RecommendContext :=
  { userId := "u1", category := "", userFeedback := none, n := 1, results := [],
    excludeSet := [], numPrevStage := 0, numFromLatest := 0, numFromPopular := 0,
    numFromUserBased := 0, numFromItemBased := 0, numFromCollaborative := 0,
    numFromOffline := 0 }

/-- The context after `RecommendOffline` ran on `c2ctx0` under `envC2`. -/
def c2ctx1 : RecommendContext :=
  { c2ctx0 with results := ["a", "b"], excludeSet := ["b", "a"],
                numPrevStage := 2, numFromOffline := 2 }

/-- `c2ctx0` with target `n = 5` instead of `1`. -/
def c2ctx0n5 : RecommendContext := { c2ctx0 with n := 5 }

/-- The context after `RecommendOffline` ran on `c2ctx0n5` under `envC2`. -/
def c2ctx1n5 : RecommendContext := { c2ctx1 with n := 5 }

/-- C2, counterexample: with target `n = 1` and an offline list holding two
unseen items, the single offline stage appends both ids, so the counters sum
to 2 while the driver truncates the final results to length 1: the sum of
the six per-stage counters does not equal the length of the list the driver
returns. -/
theorem C2_counterexample_sum_exceeds_final_length :
    createRecommendContext envC2 "u1" "" 1 =
      (.ok c2ctx0, [.getScores ignoreItemsKey "u1" 0 (-1)]) ∧
    runRecommenders envC2 [stageOf .offline] c2ctx0 =
      (.ok c2ctx1, [.getScores offlineRecommendKey "u1" 0 10,
                    .existsCheck hiddenItemsKey ["a", "b"]]) ∧
    (Recommend envC2 "u1" "" 1 [stageOf .offline]).fst = .ok ["a"] ∧
    counterSum c2ctx1 = 2 ∧
    ((["a"] : List String).length : Int) = 1 ∧ (2 : Int) ≠ 1 :=
  ⟨rfl, rfl, rfl, rfl, rfl, by decide⟩

/-- C2, amended: for every pipeline run over a duplicate-free chain drawn
from the six recommenders, the sum of the per-stage counters equals the
length of the accumulated results list as it stands after the last
recommender, i.e. before the driver's truncation to `n`; whenever that
pre-truncation length is at most `n` (so the truncation is a no-op) it also
equals the length of the list the driver returns. -/
theorem C2_counter_sum_is_pretruncation_length (env : Env) (u cat : String)
    (n : Int) (tags : List StageTag) (hnd : tags.Nodup)
    (ctx0 ctx1 : RecommendContext) (ops0 ops1 : List StoreOp)
    (h0 : createRecommendContext env u cat n = (.ok ctx0, ops0))
    (h1 : runRecommenders env (tags.map stageOf) ctx0 = (.ok ctx1, ops1)) :
    counterSum ctx1 = (ctx1.results.length : Int) ∧
    ((ctx1.results.length : Int) ≤ n →
      Recommend env u cat n (tags.map stageOf) = (.ok ctx1.results, ops0 ++ ops1)) := by
  obtain ⟨hres0, hprev0, hcnt0, hn0, hsum0⟩ := createRecommendContext_ok h0
  have hsum : counterSum ctx1 = (ctx1.results.length : Int) := by
    apply runRecommenders_counters tags ctx0 ctx1 ops1 hnd (fun t _ => hcnt0 t) ?_ ?_ h1
    · rw [hprev0, hres0]
      rfl
    · rw [hsum0, hres0]
      rfl
  refine ⟨hsum, fun hle => ?_⟩
  unfold Recommend
  simp only [h0, h1]
  unfold truncateResults
  rw [if_neg (not_lt.mpr hle)]

/-- Witness for the amended C2 theorem at a concrete input. -/
theorem C2_counter_sum_witness :
    counterSum c2ctx1n5 = (c2ctx1n5.results.length : Int) ∧
    Recommend envC2 "u1" "" 5 [stageOf .offline] =
      (.ok c2ctx1n5.results,
       [.getScores ignoreItemsKey "u1" 0 (-1),
        .getScores offlineRecommendKey "u1" 0 10,
        .existsCheck hiddenItemsKey ["a", "b"]]) := by
  have h := C2_counter_sum_is_pretruncation_length envC2 "u1" "" 5 [.offline]
    (List.nodup_singleton _) c2ctx0n5 c2ctx1n5
    [.getScores ignoreItemsKey "u1" 0 (-1)]
    [.getScores offlineRecommendKey "u1" 0 10, .existsCheck hiddenItemsKey ["a", "b"]]
    rfl rfl
  exact ⟨h.1, h.2 (by decide)⟩

/-- C3: every successful run of the driver returns at most `n` results, and
each of the six recommenders, invoked on a context whose results already
meet the target, returns success without touching the context and without
issuing any store call. -/
theorem C3_length_le_and_saturated_stages_skip (env : Env) (u cat : String)
    (n : Int) (recs : List Recommender) (out : List String) (ops : List StoreOp)
    (h : Recommend env u cat n recs = (.ok out, ops)) :
    (out.length : Int) ≤ n ∧
    (∀ r ∈ sixRecommenders, ∀ ctx : RecommendContext,
      ctx.n ≤ (ctx.results.length : Int) → r env ctx = (.ok ctx, [])) := by
  constructor
  · unfold Recommend at h
    split at h
    · simp at h
    · split at h
      · simp at h
      · rename_i ctx1 ops1 hrun
        simp only [Prod.mk.injEq] at h
        exact truncateResults_ok_length h.1
  · intro r hr ctx hn
    exact stage_skip r hr hn

/-- A context that has already met its target (`n = 0`). -/
def c3ctx : RecommendContext := { c2ctx0 with n := 0 }

/-- Witness for the C3 theorem at a concrete input. -/
theorem C3_witness :
    ((([] : List String).length : Int) ≤ 0) ∧
    stageOf .offline envEmptyAll c3ctx = (.ok c3ctx, []) := by
  have h := C3_length_le_and_saturated_stages_skip envEmptyAll "u1" "" 0 [] []
    [.getScores ignoreItemsKey "u1" 0 (-1)] rfl
  exact ⟨h.1, h.2 (stageOf .offline) (by simp [sixRecommenders, allTags]) c3ctx (by decide)⟩

/-- C4: over any chain drawn from the six recommenders, every context the
pipeline reaches has duplicate-free results, and every id in the results is
a member of the exclusion set. -/
theorem C4_results_nodup_and_in_excludeSet (env : Env) (u cat : String)
    (n : Int) (recs : List Recommender)
    (hchain : ∀ r ∈ recs, r ∈ sixRecommenders)
    (ctx0 ctxMid : RecommendContext) (ops0 ops1 : List StoreOp)
    (h0 : createRecommendContext env u cat n = (.ok ctx0, ops0))
    (h1 : runRecommenders env recs ctx0 = (.ok ctxMid, ops1)) :
    ctxMid.results.Nodup ∧ ∀ id ∈ ctxMid.results, id ∈ ctxMid.excludeSet := by
  have hres0 := (createRecommendContext_ok h0).1
  apply runRecommenders_inv
    (P := fun c => c.results.Nodup ∧ ∀ id ∈ c.results, id ∈ c.excludeSet)
    ?_ recs hchain ctx0 ctxMid ops1 ?_ h1
  · intro t c c' hP hinv
    obtain ⟨ex1, ids, hexsub, hidsnd, hidsnot, hres, hex1sub, hidsin, -, -, -, -⟩ := hinv
    obtain ⟨hnd, hmem⟩ := hP
    constructor
    · rw [hres, List.nodup_append]
      refine ⟨hnd, hidsnd, ?_⟩
      intro a ha hb
      exact hidsnot a hb (hexsub a (hmem a ha))
    · intro id hid
      rw [hres] at hid
      rcases List.mem_append.mp hid with hmem1 | hmem2
      · exact hex1sub id (hexsub id (hmem id hmem1))
      · exact hidsin id hmem2
  · refine ⟨?_, ?_⟩ <;> simp [hres0]

/-- Witness for the C4 theorem at a concrete input. -/
theorem C4_witness :
    c2ctx1n5.results.Nodup ∧ ∀ id ∈ c2ctx1n5.results, id ∈ c2ctx1n5.excludeSet := by
  apply C4_results_nodup_and_in_excludeSet envC2 "u1" "" 5 [stageOf .offline]
    ?_ c2ctx0n5 c2ctx1n5 [.getScores ignoreItemsKey "u1" 0 (-1)]
    [.getScores offlineRecommendKey "u1" 0 10, .existsCheck hiddenItemsKey ["a", "b"]]
    rfl rfl
  intro r hr
  simp only [List.mem_singleton] at hr
  subst hr
  simp [sixRecommenders, allTags]

theorem keepUnhidden_eq {α : Type} :
    ∀ (bits : List Nat) (xs : List α), bits.length = xs.length →
      keepUnhidden bits xs =
        .ok (((xs.zip bits).filter (fun p => p.2 = 0)).map Prod.fst) := by
  intro bits
  induction bits with
  | nil =>
    intro xs h
    cases xs with
    | nil => rfl
    | cons x xs2 => simp at h
  | cons b bs ih =>
    intro xs h
    cases xs with
    | nil => simp at h
    | cons x xs2 =>
      simp only [List.length_cons] at h
      unfold keepUnhidden
      rw [ih xs2 (by omega)]
      simp only [List.zip_cons_cons, List.filter_cons]
      by_cases hb : b = 0
      · subst hb
        simp
      · simp [hb]

theorem zip_filter_map_fst_sublist {α : Type} (f : α × Nat → Bool) :
    ∀ (xs : List α) (bits : List Nat),
      List.Sublist (((xs.zip bits).filter f).map Prod.fst) xs := by
  intro xs
  induction xs with
  | nil => intro bits; simp
  | cons x xs2 ih =>
    intro bits
    cases bits with
    | nil => simp
    | cons b bs =>
      simp only [List.zip_cons_cons, List.filter_cons]
      by_cases hf : f (x, b) = true
      · rw [if_pos hf]
        simp only [List.map_cons]
        exact (ih bs).cons₂ x
      · rw [if_neg hf]
        exact (ih bs).cons x

/-- C5: when the hidden-membership check errors, both hidden filters return
their input unchanged (fail-open); when it succeeds with one 0/1 flag per
position, exactly the positions flagged 1 are dropped, and the output is a
sublist of the input (relative order preserved). -/
theorem C5_hidden_filter_fail_open_and_exact_drop (env1 env2 : Env)
    (items : List Scored) (fbs : List Feedback) (msg1 msg2 : String)
    (bits bitsF : List Nat)
    (h1 : env1.existsCheck hiddenItemsKey (removeScores items) = .error msg1)
    (h1f : env1.existsCheck hiddenItemsKey (fbs.map Feedback.itemId) = .error msg2)
    (h2 : env2.existsCheck hiddenItemsKey (removeScores items) = .ok bits)
    (h2f : env2.existsCheck hiddenItemsKey (fbs.map Feedback.itemId) = .ok bitsF)
    (hlen : bits.length = items.length) (hlenF : bitsF.length = fbs.length)
    (h01 : ∀ b ∈ bits, b = 0 ∨ b = 1) (h01F : ∀ b ∈ bitsF, b = 0 ∨ b = 1) :
    (filterOutHiddenScores env1 items).fst = .ok items ∧
    (filterOutHiddenFeedback env1 fbs).fst = .ok fbs ∧
    (filterOutHiddenScores env2 items).fst =
      .ok (((items.zip bits).filter (fun p => p.2 ≠ 1)).map Prod.fst) ∧
    (filterOutHiddenFeedback env2 fbs).fst =
      .ok (((fbs.zip bitsF).filter (fun p => p.2 ≠ 1)).map Prod.fst) ∧
    List.Sublist (((items.zip bits).filter (fun p => p.2 ≠ 1)).map Prod.fst) items ∧
    List.Sublist (((fbs.zip bitsF).filter (fun p => p.2 ≠ 1)).map Prod.fst) fbs := by
  have hcongr : (items.zip bits).filter (fun p => decide (p.2 = 0)) =
      (items.zip bits).filter (fun p => decide ¬(p.2 = 1)) := by
    apply List.filter_congr
    intro p hp
    rcases h01 p.2 (List.of_mem_zip hp).2 with hb | hb <;> simp [hb]
  have hcongrF : (fbs.zip bitsF).filter (fun p => decide (p.2 = 0)) =
      (fbs.zip bitsF).filter (fun p => decide ¬(p.2 = 1)) := by
    apply List.filter_congr
    intro p hp
    rcases h01F p.2 (List.of_mem_zip hp).2 with hb | hb <;> simp [hb]
  refine ⟨?_, ?_, ?_, ?_, ?_, ?_⟩
  · simp [filterOutHiddenScores, h1]
  · simp [filterOutHiddenFeedback, h1f]
  · simp only [filterOutHiddenScores, h2]
    rw [keepUnhidden_eq bits items hlen, hcongr]
  · simp only [filterOutHiddenFeedback, h2f]
    rw [keepUnhidden_eq bitsF fbs hlenF, hcongrF]
  · exact zip_filter_map_fst_sublist _ items bits
  · exact zip_filter_map_fst_sublist _ fbs bitsF

/-- A store environment whose hidden-membership check always fails. -/
def envHiddenErr : Env :=
  { envEmptyAll with existsCheck := fun _ _ => .error "cache down" }

/-- A store environment where exactly the item `b` is hidden. -/
def envHiddenB : Env :=
  { envEmptyAll with
    existsCheck := fun _ names => .ok (names.map fun nm => if nm = "b" then 1 else 0) }

/-- Witness for the C5 theorem at a concrete input. -/
theorem C5_witness :
    (filterOutHiddenScores envHiddenErr [⟨"a", 9⟩, ⟨"b", 8⟩]).fst =
      .ok [⟨"a", 9⟩, ⟨"b", 8⟩] ∧
    (filterOutHiddenFeedback envHiddenErr [⟨"u", "a", "like", 5⟩]).fst =
      .ok [⟨"u", "a", "like", 5⟩] ∧
    (filterOutHiddenScores envHiddenB [⟨"a", 9⟩, ⟨"b", 8⟩]).fst =
      .ok ((([⟨"a", 9⟩, ⟨"b", 8⟩] : List Scored).zip [0, 1]).filter
            (fun p => p.2 ≠ 1) |>.map Prod.fst) ∧
    (filterOutHiddenFeedback envHiddenB [⟨"u", "a", "like", 5⟩]).fst =
      .ok ((([⟨"u", "a", "like", 5⟩] : List Feedback).zip [0]).filter
            (fun p => p.2 ≠ 1) |>.map Prod.fst) ∧
    List.Sublist ((([⟨"a", 9⟩, ⟨"b", 8⟩] : List Scored).zip [0, 1]).filter
      (fun p => p.2 ≠ 1) |>.map Prod.fst) [⟨"a", 9⟩, ⟨"b", 8⟩] ∧
    List.Sublist ((([⟨"u", "a", "like", 5⟩] : List Feedback).zip [0]).filter
      (fun p => p.2 ≠ 1) |>.map Prod.fst) [⟨"u", "a", "like", 5⟩] := by
  exact C5_hidden_filter_fail_open_and_exact_drop envHiddenErr envHiddenB
    [⟨"a", 9⟩, ⟨"b", 8⟩] [⟨"u", "a", "like", 5⟩] "cache down" "cache down"
    [0, 1] [0] rfl rfl rfl rfl rfl rfl (by decide) (by decide)

/-- C6: the freshly created context excludes exactly the ids of the
`IgnoreItems(userId)` entries whose score, read as a Unix-second expiry, is
at most the current time; entries with a strictly future score are not
excluded. -/
theorem C6_exclusion_from_ignore_items (env : Env) (u cat : String) (n : Int)
    (l : List Scored) (ctx : RecommendContext) (ops : List StoreOp)
    (hscores : env.getScores ignoreItemsKey u 0 (-1) = .ok l)
    (hc : createRecommendContext env u cat n = (.ok ctx, ops)) :
    ∀ id : String, id ∈ ctx.excludeSet ↔ ∃ it ∈ l, it.id = id ∧ it.score ≤ env.now := by
  unfold createRecommendContext at hc
  rw [hscores] at hc
  simp only [Prod.mk.injEq, Except.ok.injEq] at hc
  obtain ⟨h1, -⟩ := hc
  subst h1
  intro id
  simpa using mem_ignore_foldl env.now l [] id

/-- A store environment whose ignore list for any user holds an expired
entry `x` (score 900 ≤ now = 1000) and an unexpired entry `y` (score 2000). -/
def envC6 : Env :=
  { envEmptyAll with
    getScores := fun p _ _ _ =>
      if p = ignoreItemsKey then .ok [⟨"x", 900⟩, ⟨"y", 2000⟩] else .ok [] }

/-- The context `createRecommendContext envC6 "u1" "" 3` builds. -/
def c6ctx : RecommendContext :=
  { c2ctx0 with n := 3, excludeSet := ["x"] }

/-- Witness for the C6 theorem at a concrete input: `x` is excluded, `y`
(future expiry) is not. -/
theorem C6_witness :
    ("x" ∈ c6ctx.excludeSet ↔
      ∃ it ∈ ([⟨"x", 900⟩, ⟨"y", 2000⟩] : List Scored), it.id = "x" ∧ it.score ≤ envC6.now) ∧
    ("y" ∈ c6ctx.excludeSet ↔
      ∃ it ∈ ([⟨"x", 900⟩, ⟨"y", 2000⟩] : List Scored), it.id = "y" ∧ it.score ≤ envC6.now) := by
  have h := C6_exclusion_from_ignore_items envC6 "u1" "" 3 [⟨"x", 900⟩, ⟨"y", 2000⟩]
    c6ctx [.getScores ignoreItemsKey "u1" 0 (-1)] rfl rfl
  exact ⟨h "x", h "y"⟩

theorem keepUnhidden_zeros {α : Type} :
    ∀ (bits : List Nat) (xs : List α), (∀ b ∈ bits, b = 0) → bits.length = xs.length →
      keepUnhidden bits xs = .ok xs := by
  intro bits
  induction bits with
  | nil =>
    intro xs _ h
    cases xs with
    | nil => rfl
    | cons x xs2 => simp at h
  | cons b bs ih =>
    intro xs hz h
    cases xs with
    | nil => simp at h
    | cons x xs2 =>
      simp only [List.length_cons] at h
      unfold keepUnhidden
      rw [ih xs2 (fun b2 hb2 => hz b2 (List.mem_cons_of_mem b hb2)) (by omega)]
      rw [hz b (List.mem_cons_self b bs)]
      simp

/-- A ranked latest-items list with three entries. -/
def tableC7 : List Scored := [⟨"a", 9⟩, ⟨"b", 8⟩, ⟨"c", 7⟩]

/-- A store environment serving `tableC7` through the inclusive `GetScores`
contract as the latest-items keyspace; nothing hidden, no feedback. -/
def envC7 : Env :=
  { envEmptyAll with
    getScores := fun p _ b e =>
      if p = latestItemsKey then .ok (sliceInclusive tableC7 b e) else .ok [] }

/-- A context with one free slot (`n = 1`, no results yet) and the user
feedback already loaded. -/
def ctxC7 : RecommendContext := { c2ctx0 with userFeedback := some [] }

/-- C7, counterexample: with one free slot (`n − len(results) = 1`) the
Latest recommender issues `GetScores(LatestItems, category, 0, 1)`, which
under the spec's inclusive-index contract denotes the first TWO entries of
the stored list, not the first one; both fetched ids are appended.  So the
stage does not read exactly the first `n − len(results)` entries. -/
theorem C7_counterexample_reads_one_extra_entry :
    ctxC7.n - (ctxC7.results.length : Int) = 1 ∧
    sliceInclusive tableC7 0 1 = [⟨"a", 9⟩, ⟨"b", 8⟩] ∧
    (RecommendLatest envC7 ctxC7).snd =
      [.getScores latestItemsKey "" 0 1, .existsCheck hiddenItemsKey ["a", "b"]] ∧
    Except.map RecommendContext.results (RecommendLatest envC7 ctxC7).fst =
      .ok ["a", "b"] :=
  ⟨rfl, rfl, rfl, rfl⟩

/-- C7, amended: the Latest recommender, invoked when `len(results) < n`
with the user feedback loaded, issues exactly one read
`GetScores(LatestItems, category, 0, n − len(results))` — under the
inclusive contract the entries at positions `0 .. n − len(results)`, i.e.
the first `n − len(results) + 1` entries — hidden-filters them, and appends
the non-excluded ids in source order. -/
theorem C7_latest_reads_inclusive_range (env : Env) (ctx : RecommendContext)
    (table : List Scored) (fbl : List Feedback)
    (hlt : (ctx.results.length : Int) < ctx.n)
    (hfb : ctx.userFeedback = some fbl)
    (henv : ∀ b e : Int, env.getScores latestItemsKey ctx.category b e =
      .ok (sliceInclusive table b e))
    (hex : ∀ names, env.existsCheck hiddenItemsKey names = .ok (names.map fun _ => 0)) :
    ∃ ctx' : RecommendContext,
      (RecommendLatest env ctx).fst = .ok ctx' ∧
      ctx'.results = ctx.results ++
        selectUnseen ctx.excludeSet
          (table.take ((ctx.n - (ctx.results.length : Int)).toNat + 1)) ∧
      (RecommendLatest env ctx).snd =
        [.getScores latestItemsKey ctx.category 0 (ctx.n - (ctx.results.length : Int)),
         .existsCheck hiddenItemsKey
           (removeScores (table.take ((ctx.n - (ctx.results.length : Int)).toNat + 1)))] := by
  have hreq : requireUserFeedback env ctx = (.ok ctx, []) := by
    unfold requireUserFeedback
    rw [hfb]
  have he : ctx.n - (ctx.results.length : Int) ≠ -1 := by omega
  have hitems : env.getScores latestItemsKey ctx.category 0
      (ctx.n - (ctx.results.length : Int)) =
      .ok (table.take ((ctx.n - (ctx.results.length : Int)).toNat + 1)) := by
    rw [henv]
    unfold sliceInclusive
    rw [if_neg he]
    simp
  have hfilter : filterOutHiddenScores env
      (table.take ((ctx.n - (ctx.results.length : Int)).toNat + 1)) =
      (.ok (table.take ((ctx.n - (ctx.results.length : Int)).toNat + 1)),
       [.existsCheck hiddenItemsKey
         (removeScores (table.take ((ctx.n - (ctx.results.length : Int)).toNat + 1)))]) := by
    unfold filterOutHiddenScores
    rw [hex]
    dsimp only
    rw [keepUnhidden_zeros _ _
      (by intro b hb; rcases List.mem_map.mp hb with ⟨q, -, hq⟩; exact hq.symm)
      (by simp [removeScores])]
  have hR : (RecommendLatest env ctx) =
      (.ok { appendUnseen ctx (table.take ((ctx.n - (ctx.results.length : Int)).toNat + 1)) with
              numFromLatest :=
                (((appendUnseen ctx
                    (table.take ((ctx.n - (ctx.results.length : Int)).toNat + 1))).results.length : Int)
                  - (appendUnseen ctx
                      (table.take ((ctx.n - (ctx.results.length : Int)).toNat + 1))).numPrevStage),
              numPrevStage :=
                ((appendUnseen ctx
                    (table.take ((ctx.n - (ctx.results.length : Int)).toNat + 1))).results.length : Int) },
       [.getScores latestItemsKey ctx.category 0 (ctx.n - (ctx.results.length : Int)),
        .existsCheck hiddenItemsKey
          (removeScores (table.take ((ctx.n - (ctx.results.length : Int)).toNat + 1)))]) := by
    unfold RecommendLatest
    rw [if_pos hlt, hreq]
    dsimp only
    rw [hitems]
    dsimp only
    rw [hfilter]
    rfl
  rw [hR]
  exact ⟨_, rfl, by rw [appendUnseen_eq], rfl⟩

/-- Witness for the amended C7 theorem at a concrete input. -/
theorem C7_witness :
    ∃ ctx' : RecommendContext,
      (RecommendLatest envC7 ctxC7).fst = .ok ctx' ∧
      ctx'.results = ctxC7.results ++
        selectUnseen ctxC7.excludeSet
          (tableC7.take ((ctxC7.n - (ctxC7.results.length : Int)).toNat + 1)) ∧
      (RecommendLatest envC7 ctxC7).snd =
        [.getScores latestItemsKey ctxC7.category 0 (ctxC7.n - (ctxC7.results.length : Int)),
         .existsCheck hiddenItemsKey
           (removeScores (tableC7.take ((ctxC7.n - (ctxC7.results.length : Int)).toNat + 1)))] :=
  C7_latest_reads_inclusive_range envC7 ctxC7 tableC7 [] (by decide) rfl
    (fun b e => rfl) (fun names => rfl)

/-- The trace the write-back loop leaves per item: the data-store insert of
the synthetic row followed by the cache mirror into `IgnoreItems(userId)`. -/
def wbOps (env : Env) (u T : String) (D : Int) (items : List String) : List StoreOp :=
  items.foldr
    (fun it acc =>
      .batchInsertFeedback [wbRow env u T D it] false false false ::
      .appendScores ignoreItemsKey u [⟨it, env.now + 60 * D⟩] :: acc) []

theorem writeBack_ok (env : Env) (u T : String) (D : Int) :
    ∀ items : List String,
      (∀ it ∈ items,
        env.batchInsertFeedback [wbRow env u T D it] false false false = .ok () ∧
        env.appendScores ignoreItemsKey u [⟨it, env.now + 60 * D⟩] = .ok ()) →
      writeBack env u T D items = (.ok (), wbOps env u T D items) := by
  intro items
  induction items with
  | nil => intro _; rfl
  | cons it rest ih =>
    intro hok
    have h1 := (hok it (List.mem_cons_self it rest)).1
    have h2 := (hok it (List.mem_cons_self it rest)).2
    unfold writeBack
    dsimp only
    rw [h1]
    dsimp only
    unfold insertFeedbackToCache
    dsimp only [wbRow]
    rw [h2]
    dsimp only
    rw [ih (fun it2 hit2 => hok it2 (List.mem_cons_of_mem it hit2))]
    rfl

theorem writeBack_abort (env : Env) (u T : String) (D : Int) :
    ∀ (preItems : List String) (failItem : String) (restItems : List String)
      (msg : String),
      (∀ it ∈ preItems,
        env.batchInsertFeedback [wbRow env u T D it] false false false = .ok () ∧
        env.appendScores ignoreItemsKey u [⟨it, env.now + 60 * D⟩] = .ok ()) →
      env.batchInsertFeedback [wbRow env u T D failItem] false false false = .error msg →
      writeBack env u T D (preItems ++ failItem :: restItems) =
        (.error (.store msg),
         wbOps env u T D preItems ++
           [.batchInsertFeedback [wbRow env u T D failItem] false false false]) := by
  intro preItems
  induction preItems with
  | nil =>
    intro failItem restItems msg _ hfail
    show writeBack env u T D (failItem :: restItems) = _
    unfold writeBack
    dsimp only
    rw [hfail]
    rfl
  | cons it pre ih =>
    intro failItem restItems msg hpre hfail
    have h1 := (hpre it (List.mem_cons_self it pre)).1
    have h2 := (hpre it (List.mem_cons_self it pre)).2
    show writeBack env u T D (it :: (pre ++ failItem :: restItems)) = _
    unfold writeBack
    dsimp only
    rw [h1]
    dsimp only
    unfold insertFeedbackToCache
    dsimp only [wbRow]
    rw [h2]
    dsimp only
    rw [ih failItem restItems msg (fun it2 hit2 => hpre it2 (List.mem_cons_of_mem it hit2)) hfail]
    rfl

/-- C8: with a non-empty write-back type `T` and delay `D` minutes, the
write-back loop inserts, for each returned item in order, the synthetic row
`{u, item, T, now + 60·D}` via `BatchInsertFeedback([row], false, false,
false)` and then appends `{item, unix(timestamp)}` to `IgnoreItems(u)`; the
first store error aborts the remaining write-backs and the handler answers
with an internal error (HTTP 500); the handler runs this loop on exactly the
results page it is about to return. -/
theorem C8_write_back_rows_and_abort (env1 env2 env3 : Env) (u T : String)
    (D : Int) (items preItems restItems : List String) (failItem : String)
    (msg : String) (fallbackNames : List String) (p : RequestParams)
    (fl : List Recommender) (rs rs1 : List String) (ops : List StoreOp)
    (hok : ∀ it ∈ items,
      env1.batchInsertFeedback [wbRow env1 u T D it] false false false = .ok () ∧
      env1.appendScores ignoreItemsKey u [⟨it, env1.now + 60 * D⟩] = .ok ())
    (hpre : ∀ it ∈ preItems,
      env2.batchInsertFeedback [wbRow env2 u T D it] false false false = .ok () ∧
      env2.appendScores ignoreItemsKey u [⟨it, env2.now + 60 * D⟩] = .ok ())
    (hfail : env2.batchInsertFeedback [wbRow env2 u T D failItem] false false false =
      .error msg)
    (hT : p.writeBackType ≠ "")
    (hfl : buildRecommenders fallbackNames = some fl)
    (hrec : Recommend env3 p.userId p.category (p.offset + p.n)
      (RecommendOffline :: fl) = (.ok rs, ops))
    (hdrop : goDropFrom rs p.offset = .ok rs1) :
    writeBack env1 u T D items = (.ok (), wbOps env1 u T D items) ∧
    writeBack env2 u T D (preItems ++ failItem :: restItems) =
      (.error (.store msg),
       wbOps env2 u T D preItems ++
         [.batchInsertFeedback [wbRow env2 u T D failItem] false false false]) ∧
    getRecommendCore env3 fallbackNames p =
      (match (writeBack env3 p.userId p.writeBackType p.writeBackDelay rs1).fst with
       | .error e => .error e
       | .ok _ => .ok rs1,
       ops ++ (writeBack env3 p.userId p.writeBackType p.writeBackDelay rs1).snd) := by
  refine ⟨writeBack_ok env1 u T D items hok,
    writeBack_abort env2 u T D preItems failItem restItems msg hpre hfail, ?_⟩
  unfold getRecommendCore
  rw [hfl]
  dsimp only
  rw [hrec]
  dsimp only
  rw [hdrop]
  dsimp only
  rw [if_pos hT]
  rcases hw : writeBack env3 p.userId p.writeBackType p.writeBackDelay rs1 with ⟨res, ops2⟩
  cases res <;> simp [hw]

/-- A store environment whose data-store insert fails exactly on rows for
the item `x`. -/
def envWBFailX : Env :=
  { envEmptyAll with
    batchInsertFeedback := fun rows _ _ _ =>
      if rows.any (fun r => r.itemId = "x") then .error "db down" else .ok () }

/-- The request of the C8 witness: write-back type `impression`, delay 2. -/
def pC8 : RequestParams :=
  { userId := "u1", category := "", n := 1, offset := 0,
    writeBackType := "impression", writeBackDelay := 2 }

/-- Witness for the C8 theorem at a concrete input. -/
theorem C8_witness :
    writeBack envEmptyAll "u1" "impression" 2 ["a", "b"] =
      (.ok (), wbOps envEmptyAll "u1" "impression" 2 ["a", "b"]) ∧
    writeBack envWBFailX "u1" "impression" 2 (["a"] ++ "x" :: ["c"]) =
      (.error (.store "db down"),
       wbOps envWBFailX "u1" "impression" 2 ["a"] ++
         [.batchInsertFeedback [wbRow envWBFailX "u1" "impression" 2 "x"]
           false false false]) ∧
    getRecommendCore envEmptyAll [] pC8 =
      (match (writeBack envEmptyAll pC8.userId pC8.writeBackType pC8.writeBackDelay
          []).fst with
       | .error e => .error e
       | .ok _ => .ok [],
       [.getScores ignoreItemsKey "u1" 0 (-1),
        .getScores offlineRecommendKey "u1" 0 10,
        .existsCheck hiddenItemsKey []] ++
         (writeBack envEmptyAll pC8.userId pC8.writeBackType pC8.writeBackDelay []).snd) := by
  exact C8_write_back_rows_and_abort envEmptyAll envWBFailX envEmptyAll "u1" "impression" 2
    ["a", "b"] ["a"] ["c"] "x" "db down" [] pC8 [] [] []
    [.getScores ignoreItemsKey "u1" 0 (-1),
     .getScores offlineRecommendKey "u1" 0 10,
     .existsCheck hiddenItemsKey []]
    (by intro it hit; exact ⟨rfl, rfl⟩)
    (by
      intro it hit
      simp only [List.mem_singleton] at hit
      subst hit
      exact ⟨rfl, rfl⟩)
    rfl (by simp [pC8]) rfl rfl rfl

/-- The request of the C1 failing input: `n = 0`, `offset = 1`, no
write-back. -/
def pC1 : RequestParams :=
  { userId := "u1", category := "", n := 0, offset := 1,
    writeBackType := "", writeBackDelay := 0 }

/-- A trace that issues only read operations against the stores. -/
def ReadsOnly (ops : List StoreOp) : Prop := ∀ op ∈ ops, op.isRead = true

theorem readsOnly_nil : ReadsOnly [] := by
  intro op hop
  simp at hop

theorem readsOnly_cons {op0 : StoreOp} {ops : List StoreOp}
    (h0 : op0.isRead = true) (h : ReadsOnly ops) : ReadsOnly (op0 :: ops) := by
  intro op hop
  rcases List.mem_cons.mp hop with rfl | h2
  · exact h0
  · exact h op h2

theorem readsOnly_append {ops1 ops2 : List StoreOp}
    (h1 : ReadsOnly ops1) (h2 : ReadsOnly ops2) : ReadsOnly (ops1 ++ ops2) := by
  intro op hop
  rcases List.mem_append.mp hop with h | h
  · exact h1 op h
  · exact h2 op h

theorem readsOnly_singleton {op0 : StoreOp} (h : op0.isRead = true) :
    ReadsOnly [op0] := readsOnly_cons h readsOnly_nil

theorem filterOutHiddenScores_reads (env : Env) (items : List Scored) :
    ReadsOnly (filterOutHiddenScores env items).snd := by
  unfold filterOutHiddenScores
  split <;> exact readsOnly_singleton rfl

theorem filterOutHiddenFeedback_reads (env : Env) (fbs : List Feedback) :
    ReadsOnly (filterOutHiddenFeedback env fbs).snd := by
  unfold filterOutHiddenFeedback
  split <;> exact readsOnly_singleton rfl

theorem createRecommendContext_reads (env : Env) (u cat : String) (n : Int) :
    ReadsOnly (createRecommendContext env u cat n).snd := by
  unfold createRecommendContext
  split <;> exact readsOnly_singleton rfl

theorem requireUserFeedback_reads (env : Env) (ctx : RecommendContext) :
    ReadsOnly (requireUserFeedback env ctx).snd := by
  unfold requireUserFeedback
  split
  · exact readsOnly_nil
  · split <;> exact readsOnly_singleton rfl

theorem collectNeighborFeedback_reads {env : Env} {ctx : RecommendContext}
    {sim : Int} :
    ∀ (fbs : List Feedback) (m : List (String × Int)),
      ReadsOnly (collectNeighborFeedback env ctx sim fbs m).snd := by
  intro fbs
  induction fbs with
  | nil => intro m; exact readsOnly_nil
  | cons fb rest ih =>
    intro m
    unfold collectNeighborFeedback
    split
    · exact ih m
    · split
      · exact readsOnly_singleton rfl
      · exact readsOnly_cons rfl (ih _)

theorem userBasedLoop_reads {env : Env} {ctx : RecommendContext} :
    ∀ (users : List Scored) (m : List (String × Int)),
      ReadsOnly (userBasedLoop env ctx users m).snd := by
  intro users
  induction users with
  | nil => intro m; exact readsOnly_nil
  | cons user rest ih =>
    intro m
    unfold userBasedLoop
    split
    · exact readsOnly_singleton rfl
    · rename_i feedbacks heq
      split
      · rename_i e ops1 hfilter
        have hsnd : (filterOutHiddenFeedback env feedbacks).snd = ops1 :=
          congrArg Prod.snd hfilter
        exact readsOnly_cons rfl (hsnd ▸ filterOutHiddenFeedback_reads env feedbacks)
      · rename_i feedbacks1 ops1 hfilter
        split
        · rename_i e ops2 hcollect
          have hsnd1 : (filterOutHiddenFeedback env feedbacks).snd = ops1 :=
            congrArg Prod.snd hfilter
          have hsnd2 : (collectNeighborFeedback env ctx user.score feedbacks1 m).snd = ops2 :=
            congrArg Prod.snd hcollect
          exact readsOnly_cons rfl (readsOnly_append
            (hsnd1 ▸ filterOutHiddenFeedback_reads env feedbacks)
            (hsnd2 ▸ collectNeighborFeedback_reads feedbacks1 m))
        · rename_i candidates1 ops2 hcollect
          have hsnd1 : (filterOutHiddenFeedback env feedbacks).snd = ops1 :=
            congrArg Prod.snd hfilter
          have hsnd2 : (collectNeighborFeedback env ctx user.score feedbacks1 m).snd = ops2 :=
            congrArg Prod.snd hcollect
          exact readsOnly_cons rfl (readsOnly_append (readsOnly_append
            (hsnd1 ▸ filterOutHiddenFeedback_reads env feedbacks)
            (hsnd2 ▸ collectNeighborFeedback_reads feedbacks1 m))
            (ih candidates1))

theorem itemBasedLoop_reads {env : Env} {ctx : RecommendContext} :
    ∀ (fbs : List Feedback) (m : List (String × Int)),
      ReadsOnly (itemBasedLoop env ctx fbs m).snd := by
  intro fbs
  induction fbs with
  | nil => intro m; exact readsOnly_nil
  | cons fb rest ih =>
    intro m
    unfold itemBasedLoop
    split
    · rename_i msg ops0 hget
      have hsnd : (getCategoryScores env itemNeighborsKey fb.itemId ctx.category 0
          env.cacheSize).snd = ops0 := congrArg Prod.snd hget
      exact hsnd ▸ readsOnly_singleton rfl
    · rename_i similarItems ops0 hget
      have hsnd : (getCategoryScores env itemNeighborsKey fb.itemId ctx.category 0
          env.cacheSize).snd = ops0 := congrArg Prod.snd hget
      split
      · rename_i e ops1 hfilter
        have hsnd1 : (filterOutHiddenScores env similarItems).snd = ops1 :=
          congrArg Prod.snd hfilter
        exact readsOnly_append (hsnd ▸ readsOnly_singleton rfl)
          (hsnd1 ▸ filterOutHiddenScores_reads env similarItems)
      · rename_i similar1 ops1 hfilter
        have hsnd1 : (filterOutHiddenScores env similarItems).snd = ops1 :=
          congrArg Prod.snd hfilter
        exact readsOnly_append (readsOnly_append (hsnd ▸ readsOnly_singleton rfl)
          (hsnd1 ▸ filterOutHiddenScores_reads env similarItems)) (ih _)

theorem recommendOffline_reads (env : Env) (ctx : RecommendContext) :
    ReadsOnly (RecommendOffline env ctx).snd := by
  unfold RecommendOffline
  split
  · split
    · rename_i msg ops1 hget
      have hsnd : (getCategoryScores env offlineRecommendKey ctx.userId ctx.category 0
          env.cacheSize).snd = ops1 := congrArg Prod.snd hget
      exact hsnd ▸ readsOnly_singleton rfl
    · rename_i recommendation ops1 hget
      have hsnd : (getCategoryScores env offlineRecommendKey ctx.userId ctx.category 0
          env.cacheSize).snd = ops1 := congrArg Prod.snd hget
      split <;> rename_i fr ops2 hfilter
      all_goals {
        have hsnd2 : (filterOutHiddenScores env recommendation).snd = ops2 :=
          congrArg Prod.snd hfilter
        exact readsOnly_append (hsnd ▸ readsOnly_singleton rfl)
          (hsnd2 ▸ filterOutHiddenScores_reads env recommendation)
      }
  · exact readsOnly_nil

theorem recommendCollaborative_reads (env : Env) (ctx : RecommendContext) :
    ReadsOnly (RecommendCollaborative env ctx).snd := by
  unfold RecommendCollaborative
  split
  · split
    · rename_i msg ops1 hget
      have hsnd : (getCategoryScores env collaborativeRecommendKey ctx.userId ctx.category 0
          env.cacheSize).snd = ops1 := congrArg Prod.snd hget
      exact hsnd ▸ readsOnly_singleton rfl
    · rename_i recommendation ops1 hget
      have hsnd : (getCategoryScores env collaborativeRecommendKey ctx.userId ctx.category 0
          env.cacheSize).snd = ops1 := congrArg Prod.snd hget
      split <;> rename_i fr ops2 hfilter
      all_goals {
        have hsnd2 : (filterOutHiddenScores env recommendation).snd = ops2 :=
          congrArg Prod.snd hfilter
        exact readsOnly_append (hsnd ▸ readsOnly_singleton rfl)
          (hsnd2 ▸ filterOutHiddenScores_reads env recommendation)
      }
  · exact readsOnly_nil

theorem recommendUserBased_reads (env : Env) (ctx : RecommendContext) :
    ReadsOnly (RecommendUserBased env ctx).snd := by
  unfold RecommendUserBased
  split
  · split
    · rename_i e ops0 hreq
      have hsnd : (requireUserFeedback env ctx).snd = ops0 := congrArg Prod.snd hreq
      exact hsnd ▸ requireUserFeedback_reads env ctx
    · rename_i ctx1 ops0 hreq
      have hsnd : (requireUserFeedback env ctx).snd = ops0 := congrArg Prod.snd hreq
      split
      · exact readsOnly_append (hsnd ▸ requireUserFeedback_reads env ctx)
          (readsOnly_singleton rfl)
      · rename_i similarUsers hget
        split <;> rename_i cr ops1 hloop
        all_goals {
          have hsnd1 : (userBasedLoop env ctx1 similarUsers []).snd = ops1 :=
            congrArg Prod.snd hloop
          exact readsOnly_append (hsnd ▸ requireUserFeedback_reads env ctx)
            (readsOnly_cons rfl (hsnd1 ▸ userBasedLoop_reads similarUsers []))
        }
  · exact readsOnly_nil

theorem recommendItemBased_reads (env : Env) (ctx : RecommendContext) :
    ReadsOnly (RecommendItemBased env ctx).snd := by
  unfold RecommendItemBased
  split
  · split
    · rename_i e ops0 hreq
      have hsnd : (requireUserFeedback env ctx).snd = ops0 := congrArg Prod.snd hreq
      exact hsnd ▸ requireUserFeedback_reads env ctx
    · rename_i ctx1 ops0 hreq
      have hsnd : (requireUserFeedback env ctx).snd = ops0 := congrArg Prod.snd hreq
      split <;> rename_i cr ops1 hloop
      all_goals {
        have hsnd1 : (itemBasedLoop env ctx1 (ctx1.userFeedback.getD []) []).snd = ops1 :=
          congrArg Prod.snd hloop
        exact readsOnly_append (hsnd ▸ requireUserFeedback_reads env ctx)
          (hsnd1 ▸ itemBasedLoop_reads (ctx1.userFeedback.getD []) [])
      }
  · exact readsOnly_nil

theorem recommendLatest_reads (env : Env) (ctx : RecommendContext) :
    ReadsOnly (RecommendLatest env ctx).snd := by
  unfold RecommendLatest
  split
  · split
    · rename_i e ops0 hreq
      have hsnd : (requireUserFeedback env ctx).snd = ops0 := congrArg Prod.snd hreq
      exact hsnd ▸ requireUserFeedback_reads env ctx
    · rename_i ctx1 ops0 hreq
      have hsnd : (requireUserFeedback env ctx).snd = ops0 := congrArg Prod.snd hreq
      split
      · exact readsOnly_append (hsnd ▸ requireUserFeedback_reads env ctx)
          (readsOnly_singleton rfl)
      · rename_i items hget
        split <;> rename_i fr ops2 hfilter
        all_goals {
          have hsnd2 : (filterOutHiddenScores env items).snd = ops2 :=
            congrArg Prod.snd hfilter
          exact readsOnly_append (hsnd ▸ requireUserFeedback_reads env ctx)
            (readsOnly_cons rfl (hsnd2 ▸ filterOutHiddenScores_reads env items))
        }
  · exact readsOnly_nil

theorem recommendPopular_reads (env : Env) (ctx : RecommendContext) :
    ReadsOnly (RecommendPopular env ctx).snd := by
  unfold RecommendPopular
  split
  · split
    · rename_i e ops0 hreq
      have hsnd : (requireUserFeedback env ctx).snd = ops0 := congrArg Prod.snd hreq
      exact hsnd ▸ requireUserFeedback_reads env ctx
    · rename_i ctx1 ops0 hreq
      have hsnd : (requireUserFeedback env ctx).snd = ops0 := congrArg Prod.snd hreq
      split
      · exact readsOnly_append (hsnd ▸ requireUserFeedback_reads env ctx)
          (readsOnly_singleton rfl)
      · rename_i items hget
        split <;> rename_i fr ops2 hfilter
        all_goals {
          have hsnd2 : (filterOutHiddenScores env items).snd = ops2 :=
            congrArg Prod.snd hfilter
          exact readsOnly_append (hsnd ▸ requireUserFeedback_reads env ctx)
            (readsOnly_cons rfl (hsnd2 ▸ filterOutHiddenScores_reads env items))
        }
  · exact readsOnly_nil

theorem six_reads {r : Recommender} (hr : r ∈ sixRecommenders) (env : Env)
    (ctx : RecommendContext) : ReadsOnly (r env ctx).snd := by
  simp only [sixRecommenders, allTags, List.map_cons, List.map_nil, List.mem_cons,
    List.not_mem_nil, or_false, stageOf] at hr
  rcases hr with rfl | rfl | rfl | rfl | rfl | rfl
  · exact recommendOffline_reads env ctx
  · exact recommendCollaborative_reads env ctx
  · exact recommendItemBased_reads env ctx
  · exact recommendUserBased_reads env ctx
  · exact recommendLatest_reads env ctx
  · exact recommendPopular_reads env ctx

theorem runRecommenders_reads {env : Env} :
    ∀ (recs : List Recommender), (∀ r ∈ recs, r ∈ sixRecommenders) →
      ∀ ctx : RecommendContext, ReadsOnly (runRecommenders env recs ctx).snd := by
  intro recs
  induction recs with
  | nil => intro _ ctx; exact readsOnly_nil
  | cons r rest ih =>
    intro hchain ctx
    have hr : ReadsOnly (r env ctx).snd :=
      six_reads (hchain r (List.mem_cons_self r rest)) env ctx
    unfold runRecommenders
    split
    · rename_i e ops1 heq
      have hsnd : (r env ctx).snd = ops1 := congrArg Prod.snd heq
      exact hsnd ▸ hr
    · rename_i ctx1 ops1 heq
      have hsnd : (r env ctx).snd = ops1 := congrArg Prod.snd heq
      split
      rename_i res2 ops2 heq2
      have hsnd2 : (runRecommenders env rest ctx1).snd = ops2 := congrArg Prod.snd heq2
      exact readsOnly_append (hsnd ▸ hr)
        (hsnd2 ▸ ih (fun r2 hr2 => hchain r2 (List.mem_cons_of_mem r hr2)) ctx1)

theorem recommend_reads (env : Env) (u cat : String) (n : Int)
    (recs : List Recommender) (hchain : ∀ r ∈ recs, r ∈ sixRecommenders) :
    ReadsOnly (Recommend env u cat n recs).snd := by
  unfold Recommend
  split
  · rename_i e ops1 hc
    have hsnd : (createRecommendContext env u cat n).snd = ops1 := congrArg Prod.snd hc
    exact hsnd ▸ createRecommendContext_reads env u cat n
  · rename_i ctx0 ops0 hc
    have hsnd : (createRecommendContext env u cat n).snd = ops0 := congrArg Prod.snd hc
    split <;> rename_i r1 ops1 hrun
    all_goals {
      have hsnd1 : (runRecommenders env recs ctx0).snd = ops1 := congrArg Prod.snd hrun
      exact readsOnly_append (hsnd ▸ createRecommendContext_reads env u cat n)
        (hsnd1 ▸ runRecommenders_reads recs hchain ctx0)
    }

theorem resolveFallback_six {name : String} {r : Recommender}
    (h : resolveFallback name = some r) : r ∈ sixRecommenders := by
  unfold resolveFallback at h
  split at h
  · exact (Option.some.inj h) ▸ (by simp [sixRecommenders, allTags, stageOf])
  · exact (Option.some.inj h) ▸ (by simp [sixRecommenders, allTags, stageOf])
  · exact (Option.some.inj h) ▸ (by simp [sixRecommenders, allTags, stageOf])
  · exact (Option.some.inj h) ▸ (by simp [sixRecommenders, allTags, stageOf])
  · exact (Option.some.inj h) ▸ (by simp [sixRecommenders, allTags, stageOf])
  · exact absurd h (by simp)

theorem buildRecommenders_six :
    ∀ (names : List String) (fl : List Recommender),
      buildRecommenders names = some fl → ∀ r ∈ fl, r ∈ sixRecommenders := by
  intro names
  induction names with
  | nil =>
    intro fl h r hr
    simp only [buildRecommenders, Option.some.injEq] at h
    subst h
    simp at hr
  | cons name rest ih =>
    intro fl h r hr
    unfold buildRecommenders at h
    split at h
    · rename_i r1 rs1 hres hbuild
      simp only [Option.some.injEq] at h
      subst h
      rcases List.mem_cons.mp hr with rfl | hr2
      · exact resolveFallback_six hres
      · exact ih rs1 hbuild r hr2
    · simp at h

/-- C9: every store call the pipeline driver issues — over any chain drawn
from the six recommenders, on every path including error paths — is a read
(`GetScores`/`GetCategoryScores`/`Exists`/`GetUserFeedback`/`GetItem`);
no `AppendScores` or `BatchInsertFeedback` is issued, so both stores are
left unchanged.  The handler as a whole also issues only reads when the
request carries no write-back type: mutation happens only in the write-back
step. -/
theorem C9_pipeline_issues_only_reads (env : Env) (u cat : String) (n : Int)
    (recs : List Recommender) (hchain : ∀ r ∈ recs, r ∈ sixRecommenders) :
    (∀ op ∈ (Recommend env u cat n recs).snd, op.isRead = true) ∧
    (∀ (fallbackNames : List String) (p : RequestParams), p.writeBackType = "" →
      ∀ op ∈ (getRecommendCore env fallbackNames p).snd, op.isRead = true) := by
  refine ⟨recommend_reads env u cat n recs hchain, ?_⟩
  intro fallbackNames p hwb
  unfold getRecommendCore
  split
  · exact readsOnly_nil
  · rename_i fl hfl
    have hchain2 : ∀ r ∈ RecommendOffline :: fl, r ∈ sixRecommenders := by
      intro r hr
      rcases List.mem_cons.mp hr with rfl | hr2
      · simp [sixRecommenders, allTags, stageOf]
      · exact buildRecommenders_six fallbackNames fl hfl r hr2
    split
    · rename_i e ops hrec
      have hsnd : (Recommend env p.userId p.category (p.offset + p.n)
          (RecommendOffline :: fl)).snd = ops := congrArg Prod.snd hrec
      exact hsnd ▸ recommend_reads env p.userId p.category (p.offset + p.n) _ hchain2
    · rename_i results ops hrec
      have hsnd : (Recommend env p.userId p.category (p.offset + p.n)
          (RecommendOffline :: fl)).snd = ops := congrArg Prod.snd hrec
      split
      · exact hsnd ▸ recommend_reads env p.userId p.category (p.offset + p.n) _ hchain2
      · rw [if_neg (by simp [hwb])]
        exact hsnd ▸ recommend_reads env p.userId p.category (p.offset + p.n) _ hchain2

/-- Witness for the C9 theorem at a concrete input. -/
theorem C9_witness :
    (∀ op ∈ (Recommend envEmptyAll "u1" "" 1 [stageOf .offline]).snd, op.isRead = true) ∧
    (∀ op ∈ (getRecommendCore envEmptyAll [] pC1).snd, op.isRead = true) := by
  have h := C9_pipeline_issues_only_reads envEmptyAll "u1" "" 1 [stageOf .offline]
    (by
      intro r hr
      simp only [List.mem_singleton] at hr
      subst hr
      simp [sixRecommenders, allTags])
  exact ⟨h.1, h.2 [] pC1 rfl⟩

/-- C10: the driver's final truncation is total exactly when `n ≥ 0`: for
every `n ≥ 0` the slice `results[:n]` is in bounds, while for every `n < 0`
the guard `len(results) > n` always holds and the slice panics, so the
driver can never return successfully; negative `n` is reachable from the
HTTP layer because `ParseInt` accepts any integer. -/
theorem C10_truncation_total_iff_n_nonneg :
    (∀ (rs : List String) (n : Int), 0 ≤ n →
      truncateResults rs n =
        .ok (if (rs.length : Int) > n then rs.take n.toNat else rs)) ∧
    (∀ (rs : List String) (n : Int), n < 0 →
      (rs.length : Int) > n ∧ truncateResults rs n = .error .panic) ∧
    (∀ (env : Env) (u cat : String) (n : Int) (recs : List Recommender)
        (out : List String) (ops : List StoreOp), n < 0 →
      Recommend env u cat n recs ≠ (.ok out, ops)) ∧
    ParseIntQ "-5" 10 = .ok (-5) := by
  have hpanic : ∀ (rs : List String) (n : Int), n < 0 →
      truncateResults rs n = .error .panic := by
    intro rs n hneg
    unfold truncateResults
    rw [if_pos (by omega), if_pos hneg]
  refine ⟨?_, ?_, ?_, rfl⟩
  · intro rs n h0
    unfold truncateResults
    by_cases hgt : (rs.length : Int) > n
    · rw [if_pos hgt, if_neg (not_lt.mpr h0), if_pos hgt]
    · rw [if_neg hgt, if_neg hgt]
  · intro rs n hneg
    exact ⟨by omega, hpanic rs n hneg⟩
  · intro env u cat n recs out ops hneg heq
    unfold Recommend at heq
    split at heq
    · simp at heq
    · split at heq
      · simp at heq
      · rename_i ctx1 ops1 hrun
        simp only [Prod.mk.injEq] at heq
        obtain ⟨h1, -⟩ := heq
        rw [hpanic ctx1.results n hneg] at h1
        exact absurd h1 (by simp)

/-- Witness for the C10 theorem at concrete inputs. -/
theorem C10_witness :
    truncateResults ["a", "b"] 1 = .ok ["a"] ∧
    ((((["a"] : List String).length : Int) > -1) ∧
      truncateResults ["a"] (-1) = .error .panic) ∧
    Recommend envEmptyAll "u1" "" (-1) [stageOf .offline] ≠
      (.ok [], [.getScores ignoreItemsKey "u1" 0 (-1)]) := by
  refine ⟨?_, ?_, ?_⟩
  · rw [(C10_truncation_total_iff_n_nonneg.1 ["a", "b"] 1 (by decide))]
    rfl
  · exact C10_truncation_total_iff_n_nonneg.2.1 ["a"] (-1) (by decide)
  · exact C10_truncation_total_iff_n_nonneg.2.2.1 envEmptyAll "u1" "" (-1)
      [stageOf .offline] [] [.getScores ignoreItemsKey "u1" 0 (-1)] (by decide)

/-- C1 (code bug): with every store list empty, the pipeline (target
`offset + n = 1`) returns zero results, and the handler then evaluates
`results[offset:]` with `offset = 1 > 0 = len(results)`, which panics
(slice bounds out of range) instead of answering with an empty array as the
spec states. -/
theorem C1_offset_beyond_results_panics :
    Except.map List.length (Recommend envEmptyAll "u1" "" (pC1.offset + pC1.n)
      [RecommendOffline]).fst = .ok 0 ∧
    goDropFrom [] pC1.offset = .error .panic ∧
    (getRecommendCore envEmptyAll [] pC1).fst = .error .panic :=
  ⟨rfl, rfl, rfl⟩

end Gorse
